import Mathlib

/-!
# Verification of the SunPCI host driver core

Shallow embedding of the ring-buffer transport, framed IPC protocol,
storage emulation and named-channel registry of the SunPCI driver
(`src/driver/src/ring.c`, `ipc.c`, `storage.c`, `channel.c`, `ioctl.c`),
together with proofs of the specification's testable properties.
-/

namespace SunPCI

/-! ## Error numbers (Linux errno values used by the driver) -/

def EINVAL : Int := 22
def ENOSPC : Int := 28
def EIOERR : Int := 5  -- EIO
def ENODEV : Int := 19
def EROFS : Int := 30
def ENOENT : Int := 2
def EBUSY : Int := 16
def ETIMEDOUT : Int := 110
def EAGAIN : Int := 11
def ENOMEDIUM : Int := 123

/-! ## Ring buffer (`src/driver/src/ring.c`)

A ring is modelled by its size, producer cursor (`head`), consumer cursor
(`tail`) and backing byte store (`buf`, indexed modulo `size` by the
operations, exactly as the C code addresses `ring->base`). -/

structure Ring where
  size : Nat
  head : Nat
  tail : Nat
  buf : Nat → Nat

/-- `ring_size_valid` from ring.c: power of two, at least 64. -/
def ring_size_valid (size : Nat) : Bool :=
  64 ≤ size && (size &&& (size - 1)) == 0

/-- `sunpci_ring_init`: cursors zeroed, store zeroed by `memset`. -/
def sunpci_ring_init (size : Nat) : Ring :=
  ⟨size, 0, 0, fun _ => 0⟩

/-- `sunpci_ring_reset`: cursors zeroed. -/
def sunpci_ring_reset (r : Ring) : Ring :=
  { r with head := 0, tail := 0 }

/-- `sunpci_ring_space`: bytes available to write (one slot kept empty). -/
def sunpci_ring_space (r : Ring) : Nat :=
  if r.head ≥ r.tail then r.size - (r.head - r.tail) - 1
  else r.tail - r.head - 1

/-- `sunpci_ring_used`: bytes available to read. -/
def sunpci_ring_used (r : Ring) : Nat :=
  if r.head ≥ r.tail then r.head - r.tail
  else r.size - (r.tail - r.head)

/-- One contiguous `memcpy_toio(buf + pos, src, len)`: lay `src` down at
`pos` with no wrapping. -/
def copyAt (buf : Nat → Nat) (pos : Nat) (src : List Nat) : Nat → Nat :=
  fun j => if pos ≤ j ∧ j < pos + src.length then src.getD (j - pos) 0 else buf j

/-- `sunpci_ring_write`: rejects empty writes (`-EINVAL`), rejects writes
larger than `space()` (`-ENOSPC`), otherwise copies in at most two chunks
(wrapping at the end of the buffer) and advances `head` modulo `size`.
Returns the C function's return value together with the new ring. -/
def sunpci_ring_write (r : Ring) (data : List Nat) : Int × Ring :=
  if data.length = 0 then (-EINVAL, r)
  else if data.length > sunpci_ring_space r then (-ENOSPC, r)
  else
    let head := r.head
    let buf' :=
      if head + data.length ≤ r.size then
        copyAt r.buf head data
      else
        let chunk1 := r.size - head
        copyAt (copyAt r.buf head (data.take chunk1)) 0 (data.drop chunk1)
    ((data.length : Int),
      { r with buf := buf', head := (head + data.length) % r.size })

/-- The bytes a wrap-aware copy out of the ring produces, starting at
`tail`, for a length already clamped to `used` (the two `memcpy_fromio`
chunks of `sunpci_ring_read`/`peek`). -/
def ringCopyOut (r : Ring) (len : Nat) : List Nat :=
  if r.tail + len ≤ r.size then
    (List.range len).map (fun i => r.buf (r.tail + i))
  else
    let chunk1 := r.size - r.tail
    ((List.range chunk1).map (fun i => r.buf (r.tail + i))) ++
      ((List.range (len - chunk1)).map (fun i => r.buf i))

/-- `sunpci_ring_read`: empty reads are `-EINVAL`; otherwise reads
`min len used` bytes (0 bytes returns 0 without error) and advances `tail`.
Returns (return value, bytes copied out, new ring). -/
def sunpci_ring_read (r : Ring) (len : Nat) : Int × List Nat × Ring :=
  if len = 0 then (-EINVAL, [], r)
  else if min len (sunpci_ring_used r) = 0 then (0, [], r)
  else (((min len (sunpci_ring_used r) : Nat) : Int),
    ringCopyOut r (min len (sunpci_ring_used r)),
    { r with tail := (r.tail + min len (sunpci_ring_used r)) % r.size })

/-- `sunpci_ring_peek`: identical to read but does not advance `tail`. -/
def sunpci_ring_peek (r : Ring) (len : Nat) : Int × List Nat :=
  if len = 0 then (-EINVAL, [])
  else if min len (sunpci_ring_used r) = 0 then (0, [])
  else (((min len (sunpci_ring_used r) : Nat) : Int),
    ringCopyOut r (min len (sunpci_ring_used r)))

/-- `sunpci_ring_skip`: advance `tail` by `len` without copying; fails with
`-EINVAL` (ring unchanged) if `len > used()`. -/
def sunpci_ring_skip (r : Ring) (len : Nat) : Int × Ring :=
  if len > sunpci_ring_used r then (-EINVAL, r)
  else (0, { r with tail := (r.tail + len) % r.size })

/-- Cursor well-formedness: both cursors in `[0, size)` and a valid size.
Established by `sunpci_ring_init` and preserved by every operation. -/
def ringWF (r : Ring) : Prop :=
  ring_size_valid r.size = true ∧ r.head < r.size ∧ r.tail < r.size

/-- The occupied bytes of the ring, in consumption order: `used` bytes
starting at `tail`, wrapping modulo `size`. -/
def ringContents (r : Ring) : List Nat :=
  (List.range (sunpci_ring_used r)).map (fun i => r.buf ((r.tail + i) % r.size))

/-- Reachable ring states: the initial state of a valid-size ring, closed
under write, read, skip and reset. -/
inductive RingReachable : Ring → Prop
  | init (size : Nat) (h : ring_size_valid size = true) :
      RingReachable (sunpci_ring_init size)
  | write (r : Ring) (data : List Nat) (h : RingReachable r) :
      RingReachable (sunpci_ring_write r data).2
  | read (r : Ring) (len : Nat) (h : RingReachable r) :
      RingReachable (sunpci_ring_read r len).2.2
  | skip (r : Ring) (len : Nat) (h : RingReachable r) :
      RingReachable (sunpci_ring_skip r len).2
  | reset (r : Ring) (h : RingReachable r) :
      RingReachable (sunpci_ring_reset r)

lemma ring_size_valid_pos {size : Nat} (h : ring_size_valid size = true) :
    0 < size := by
  simp only [ring_size_valid, Bool.and_eq_true, decide_eq_true_eq] at h
  omega

lemma sunpci_ring_write_size (r : Ring) (data : List Nat) :
    (sunpci_ring_write r data).2.size = r.size := by
  unfold sunpci_ring_write
  split <;> [rfl; split <;> rfl]

lemma sunpci_ring_read_size (r : Ring) (len : Nat) :
    (sunpci_ring_read r len).2.2.size = r.size := by
  unfold sunpci_ring_read
  split <;> [rfl; split <;> rfl]

lemma sunpci_ring_skip_size (r : Ring) (len : Nat) :
    (sunpci_ring_skip r len).2.size = r.size := by
  unfold sunpci_ring_skip
  split <;> rfl

/-- Every reachable ring state has in-range cursors. -/
lemma ringReachable_wf {r : Ring} (h : RingReachable r) : ringWF r := by
  induction h with
  | init size h =>
    exact ⟨h, ring_size_valid_pos h, ring_size_valid_pos h⟩
  | write r data _ ih =>
    obtain ⟨hv, hh, ht⟩ := ih
    unfold sunpci_ring_write
    split
    · exact ⟨hv, hh, ht⟩
    · split
      · exact ⟨hv, hh, ht⟩
      · exact ⟨hv, Nat.mod_lt _ (ring_size_valid_pos hv), ht⟩
  | read r len _ ih =>
    obtain ⟨hv, hh, ht⟩ := ih
    unfold sunpci_ring_read
    split
    · exact ⟨hv, hh, ht⟩
    · split
      · exact ⟨hv, hh, ht⟩
      · exact ⟨hv, hh, Nat.mod_lt _ (ring_size_valid_pos hv)⟩
  | skip r len _ ih =>
    obtain ⟨hv, hh, ht⟩ := ih
    unfold sunpci_ring_skip
    split
    · exact ⟨hv, hh, ht⟩
    · exact ⟨hv, hh, Nat.mod_lt _ (ring_size_valid_pos hv)⟩
  | reset r _ ih =>
    obtain ⟨hv, _, _⟩ := ih
    exact ⟨hv, ring_size_valid_pos hv, ring_size_valid_pos hv⟩

/-- Under well-formed cursors, `space() + used() = size - 1`. -/
lemma space_add_used {r : Ring} (h : ringWF r) :
    sunpci_ring_space r + sunpci_ring_used r = r.size - 1 := by
  obtain ⟨hv, hh, ht⟩ := h
  have := ring_size_valid_pos hv
  unfold sunpci_ring_space sunpci_ring_used
  split <;> omega

lemma mod_two_cases {x s : Nat} (hs : 0 < s) (hx : x < 2 * s) :
    x % s < s ∧ (x % s = x ∨ x % s + s = x) := by
  refine ⟨Nat.mod_lt _ hs, ?_⟩
  rcases Nat.lt_or_ge x s with h | h
  · exact .inl (Nat.mod_eq_of_lt h)
  · right
    have hx2 : x % s = x - s := by
      conv_lhs => rw [show x = (x - s) + s by omega]
      rw [Nat.add_mod_right, Nat.mod_eq_of_lt (by omega)]
    omega

lemma space_le {r : Ring} (h : ringWF r) :
    sunpci_ring_space r ≤ r.size - 1 := by
  obtain ⟨hv, hh, ht⟩ := h
  unfold sunpci_ring_space
  split <;> omega

lemma used_cases {r : Ring} :
    (r.tail ≤ r.head ∧ sunpci_ring_used r = r.head - r.tail) ∨
    (r.head < r.tail ∧ sunpci_ring_used r = r.size - (r.tail - r.head)) := by
  unfold sunpci_ring_used
  rcases Nat.lt_or_ge r.head r.tail with h | h
  · exact .inr ⟨h, by rw [if_neg (by omega)]⟩
  · exact .inl ⟨h, by rw [if_pos (by omega)]⟩

lemma space_cases {r : Ring} :
    (r.tail ≤ r.head ∧ sunpci_ring_space r = r.size - (r.head - r.tail) - 1) ∨
    (r.head < r.tail ∧ sunpci_ring_space r = r.tail - r.head - 1) := by
  unfold sunpci_ring_space
  rcases Nat.lt_or_ge r.head r.tail with h | h
  · exact .inr ⟨h, by rw [if_neg (by omega)]⟩
  · exact .inl ⟨h, by rw [if_pos (by omega)]⟩

/-! Component equations for a successful `sunpci_ring_write`. -/

lemma sunpci_ring_write_ret {r : Ring} {data : List Nat}
    (hne : ¬data.length = 0) (hfit : ¬data.length > sunpci_ring_space r) :
    (sunpci_ring_write r data).1 = (data.length : Int) := by
  unfold sunpci_ring_write
  rw [if_neg hne, if_neg hfit]

lemma sunpci_ring_write_head {r : Ring} {data : List Nat}
    (hne : ¬data.length = 0) (hfit : ¬data.length > sunpci_ring_space r) :
    (sunpci_ring_write r data).2.head = (r.head + data.length) % r.size := by
  unfold sunpci_ring_write
  rw [if_neg hne, if_neg hfit]

lemma sunpci_ring_write_tail {r : Ring} {data : List Nat}
    (hne : ¬data.length = 0) (hfit : ¬data.length > sunpci_ring_space r) :
    (sunpci_ring_write r data).2.tail = r.tail := by
  unfold sunpci_ring_write
  rw [if_neg hne, if_neg hfit]

/-- Bytewise effect of a (possibly wrapping) ring write: position `j` holds
`data[d]` where `d` is `j`'s forward distance from the old head, when
`d < len`, and is untouched otherwise. -/
lemma sunpci_ring_write_buf {r : Ring} (hwf : ringWF r) {data : List Nat}
    (hne : ¬data.length = 0) (hfit : ¬data.length > sunpci_ring_space r)
    {j : Nat} (hj : j < r.size) :
    (sunpci_ring_write r data).2.buf j =
      if (j + r.size - r.head) % r.size < data.length
      then data.getD ((j + r.size - r.head) % r.size) 0
      else r.buf j := by
  obtain ⟨hv, hh, ht⟩ := hwf
  have hs := ring_size_valid_pos hv
  have hL : data.length ≤ r.size - 1 := le_trans (by omega) (space_le ⟨hv, hh, ht⟩)
  have hbuf : (sunpci_ring_write r data).2.buf =
      if r.head + data.length ≤ r.size then
        copyAt r.buf r.head data
      else
        copyAt (copyAt r.buf r.head (data.take (r.size - r.head))) 0
          (data.drop (r.size - r.head)) := by
    unfold sunpci_ring_write
    rw [if_neg hne, if_neg hfit]
  rw [hbuf]
  rcases Nat.lt_or_ge r.size (r.head + data.length) with hwrap | hwrap
  · -- wrapping write: two chunks
    rw [if_neg (by omega)]
    have hc1 : (data.take (r.size - r.head)).length = r.size - r.head := by
      rw [List.length_take]; omega
    have hc2 : (data.drop (r.size - r.head)).length =
        data.length - (r.size - r.head) := by rw [List.length_drop]
    rcases Nat.lt_or_ge j (data.length - (r.size - r.head)) with hj1 | hj1
    · -- j in the wrapped (second) chunk
      have hidx : (j + r.size - r.head) % r.size = j + r.size - r.head :=
        Nat.mod_eq_of_lt (by omega)
      rw [copyAt, if_pos (by omega), hidx, if_pos (by omega)]
      simp only [Nat.sub_zero, List.getD_eq_getElem?_getD, List.getElem?_drop]
      rw [show r.size - r.head + j = j + r.size - r.head by omega]
    · rcases Nat.lt_or_ge j r.head with hj2 | hj2
      · -- untouched middle region
        have hidx : (j + r.size - r.head) % r.size = j + r.size - r.head :=
          Nat.mod_eq_of_lt (by omega)
        rw [copyAt, if_neg (by omega), copyAt, if_neg (by omega), hidx,
          if_neg (by omega)]
      · -- j in the first chunk (at the end of the buffer)
        have h1 : j + r.size - r.head = (j - r.head) + r.size := by omega
        have hidx : (j + r.size - r.head) % r.size = j - r.head := by
          rw [h1, Nat.add_mod_right, Nat.mod_eq_of_lt (by omega)]
        rw [copyAt, if_neg (by omega), copyAt, if_pos (by omega), hidx,
          if_pos (by omega)]
        simp only [List.getD_eq_getElem?_getD,
          List.getElem?_take_of_lt (show j - r.head < r.size - r.head by omega)]
  · -- non-wrapping write
    rw [if_pos (by omega)]
    rcases Nat.lt_or_ge j r.head with hj1 | hj1
    · have hidx : (j + r.size - r.head) % r.size = j + r.size - r.head :=
        Nat.mod_eq_of_lt (by omega)
      rw [copyAt, if_neg (by omega), hidx, if_neg (by omega)]
    · rcases Nat.lt_or_ge j (r.head + data.length) with hj2 | hj2
      · have h1 : j + r.size - r.head = (j - r.head) + r.size := by omega
        have hidx : (j + r.size - r.head) % r.size = j - r.head := by
          rw [h1, Nat.add_mod_right, Nat.mod_eq_of_lt (by omega)]
        rw [copyAt, if_pos (by omega), hidx, if_pos (by omega)]
      · have h1 : j + r.size - r.head = (j - r.head) + r.size := by omega
        have hidx : (j + r.size - r.head) % r.size = j - r.head := by
          rw [h1, Nat.add_mod_right, Nat.mod_eq_of_lt (by omega)]
        rw [copyAt, if_neg (by omega), hidx, if_neg (by omega)]

lemma sunpci_ring_write_used {r : Ring} (hwf : ringWF r) {data : List Nat}
    (hne : ¬data.length = 0) (hfit : ¬data.length > sunpci_ring_space r) :
    sunpci_ring_used (sunpci_ring_write r data).2 =
      sunpci_ring_used r + data.length := by
  obtain ⟨hv, hh, ht⟩ := hwf
  have hs := ring_size_valid_pos hv
  have hsp := space_le ⟨hv, hh, ht⟩
  obtain ⟨hm1, hm2⟩ := mod_two_cases hs
    (show r.head + data.length < 2 * r.size by
      rcases space_cases (r := r) with ⟨h1, h2⟩ | ⟨h1, h2⟩ <;> omega)
  have hhd := sunpci_ring_write_head (r := r) hne hfit
  have htl := sunpci_ring_write_tail (r := r) hne hfit
  have hsz := sunpci_ring_write_size r data
  rcases used_cases (r := (sunpci_ring_write r data).2) with ⟨h1, h2⟩ | ⟨h1, h2⟩ <;>
    rcases used_cases (r := r) with ⟨h3, h4⟩ | ⟨h3, h4⟩ <;>
    rcases space_cases (r := r) with ⟨h5, h6⟩ | ⟨h5, h6⟩ <;>
    rw [h2, h4] <;> rw [hhd, htl] at * <;> rw [hsz] at * <;> omega

lemma ringContents_length {r : Ring} :
    (ringContents r).length = sunpci_ring_used r := by
  simp [ringContents]

/-- A successful write appends its data to the ring contents. -/
lemma sunpci_ring_write_contents {r : Ring} (hwf : ringWF r) {data : List Nat}
    (hne : ¬data.length = 0) (hfit : ¬data.length > sunpci_ring_space r) :
    ringContents (sunpci_ring_write r data).2 = ringContents r ++ data := by
  obtain ⟨hv, hh, ht⟩ := hwf
  have hs := ring_size_valid_pos hv
  have hsp := space_le ⟨hv, hh, ht⟩
  have huse := sunpci_ring_write_used ⟨hv, hh, ht⟩ hne hfit
  have htl := sunpci_ring_write_tail (r := r) hne hfit
  have hsz := sunpci_ring_write_size r data
  have hul : sunpci_ring_used r + data.length ≤ r.size - 1 := by
    have := space_add_used ⟨hv, hh, ht⟩
    omega
  apply List.ext_getElem
  · simp [ringContents, huse]
  · intro i h1 h2
    have hi : i < sunpci_ring_used r + data.length := by
      simpa [ringContents, huse] using h1
    have hup : ∀ x, x < r.size → sunpci_ring_used r ≤ x →
        True := fun _ _ _ => trivial
    -- left side: element i of the new contents
    have hL : (ringContents (sunpci_ring_write r data).2)[i] =
        (sunpci_ring_write r data).2.buf ((r.tail + i) % r.size) := by
      simp [ringContents, huse, htl, hsz]
    rw [hL]
    have hjlt : (r.tail + i) % r.size < r.size := Nat.mod_lt _ hs
    rw [sunpci_ring_write_buf ⟨hv, hh, ht⟩ hne hfit hjlt]
    -- distance of position (tail+i)%size from head
    obtain ⟨hj1, hj2⟩ := mod_two_cases hs
      (show r.tail + i < 2 * r.size by omega)
    obtain ⟨hd1, hd2⟩ := mod_two_cases hs
      (show (r.tail + i) % r.size + r.size - r.head < 2 * r.size by omega)
    rcases used_cases (r := r) with ⟨h3, h4⟩ | ⟨h3, h4⟩
    · -- head ≥ tail
      rcases Nat.lt_or_ge i (sunpci_ring_used r) with hilt | hige
      · have hge : ¬((r.tail + i) % r.size + r.size - r.head) % r.size <
            data.length := by omega
        rw [if_neg hge]
        rw [List.getElem_append_left (by simpa [ringContents] using hilt)]
        simp [ringContents, hilt]
      · have heq : ((r.tail + i) % r.size + r.size - r.head) % r.size =
            i - sunpci_ring_used r := by omega
        rw [heq, if_pos (by omega)]
        rw [List.getElem_append_right (by simpa [ringContents] using hige)]
        rw [List.getD_eq_getElem _ _ (by omega)]
        simp [ringContents]
    · -- head < tail
      rcases Nat.lt_or_ge i (sunpci_ring_used r) with hilt | hige
      · have hge : ¬((r.tail + i) % r.size + r.size - r.head) % r.size <
            data.length := by omega
        rw [if_neg hge]
        rw [List.getElem_append_left (by simpa [ringContents] using hilt)]
        simp [ringContents, hilt]
      · have heq : ((r.tail + i) % r.size + r.size - r.head) % r.size =
            i - sunpci_ring_used r := by omega
        rw [heq, if_pos (by omega)]
        rw [List.getElem_append_right (by simpa [ringContents] using hige)]
        rw [List.getD_eq_getElem _ _ (by omega)]
        simp [ringContents]

lemma used_le_size {r : Ring} (h : ringWF r) :
    sunpci_ring_used r ≤ r.size := by
  obtain ⟨hv, hh, ht⟩ := h
  rcases used_cases (r := r) with ⟨h1, h2⟩ | ⟨h1, h2⟩ <;> omega

/-- The wrap-aware copy-out of `len ≤ used` bytes is a prefix of the ring
contents. -/
lemma ringCopyOut_eq_take {r : Ring} (hwf : ringWF r) {len : Nat}
    (hlen : len ≤ sunpci_ring_used r) :
    ringCopyOut r len = (ringContents r).take len := by
  obtain ⟨hv, hh, ht⟩ := hwf
  have hs := ring_size_valid_pos hv
  have hule := used_le_size ⟨hv, hh, ht⟩
  apply List.ext_getElem
  · simp [ringCopyOut, ringContents]
    split <;> simp <;> omega
  · intro i h1 h2
    have hil : i < len ∧ i < sunpci_ring_used r := by
      simpa [ringContents, Nat.lt_min] using h2
    obtain ⟨hil, hiu⟩ := hil
    rw [List.getElem_take]
    simp only [ringContents, List.getElem_map, List.getElem_range]
    unfold ringCopyOut
    split
    · next hnw =>
      rw [List.getElem_map, List.getElem_range,
        Nat.mod_eq_of_lt (by omega)]
    · next hw =>
      push_neg at hw
      rcases Nat.lt_or_ge i (r.size - r.tail) with hi2 | hi2
      · rw [List.getElem_append_left (by simp; omega), List.getElem_map,
          List.getElem_range, Nat.mod_eq_of_lt (by omega)]
      · rw [List.getElem_append_right (by simp; omega)]
        rw [List.getElem_map, List.getElem_range]
        have h3 : r.tail + i = (i - (r.size - r.tail)) + r.size := by omega
        rw [h3, Nat.add_mod_right, Nat.mod_eq_of_lt (by omega)]
        simp only [List.length_map, List.length_range]

/-- Specification of a non-degenerate `sunpci_ring_read`: it returns
`min len used` bytes, those bytes are the corresponding prefix of the ring
contents, and the new contents are the remaining suffix. -/
lemma sunpci_ring_read_spec {r : Ring} (hwf : ringWF r) {len : Nat}
    (hlen : ¬len = 0) :
    (sunpci_ring_read r len).1 = ((min len (sunpci_ring_used r) : Nat) : Int) ∧
    (sunpci_ring_read r len).2.1 =
      (ringContents r).take (min len (sunpci_ring_used r)) ∧
    ringContents (sunpci_ring_read r len).2.2 =
      (ringContents r).drop (min len (sunpci_ring_used r)) ∧
    sunpci_ring_used (sunpci_ring_read r len).2.2 =
      sunpci_ring_used r - min len (sunpci_ring_used r) := by
  obtain ⟨hv, hh, ht⟩ := hwf
  have hs := ring_size_valid_pos hv
  have hule := used_le_size ⟨hv, hh, ht⟩
  by_cases hz : min len (sunpci_ring_used r) = 0
  · have hr : sunpci_ring_read r len = (0, [], r) := by
      unfold sunpci_ring_read
      rw [if_neg hlen, if_pos hz]
    rw [hr, hz]
    refine ⟨by simp, by simp, by simp, by simp⟩
  · have hk : min len (sunpci_ring_used r) ≤ sunpci_ring_used r :=
      Nat.min_le_right _ _
    have hr : sunpci_ring_read r len =
        (((min len (sunpci_ring_used r) : Nat) : Int),
          ringCopyOut r (min len (sunpci_ring_used r)),
          { r with tail := (r.tail + min len (sunpci_ring_used r)) % r.size }) := by
      unfold sunpci_ring_read
      rw [if_neg hlen, if_neg hz]
    rw [hr]
    dsimp only
    refine ⟨rfl, ringCopyOut_eq_take ⟨hv, hh, ht⟩ hk, ?_, ?_⟩
    · -- contents of the advanced ring are the dropped suffix
      set k := min len (sunpci_ring_used r) with hkdef
      have hused' : sunpci_ring_used
          { r with tail := (r.tail + k) % r.size } =
          sunpci_ring_used r - k := by
        obtain ⟨hm1, hm2⟩ := mod_two_cases hs
          (show r.tail + k < 2 * r.size by omega)
        rcases used_cases
            (r := ({ r with tail := (r.tail + k) % r.size } : Ring)) with
          ⟨h1, h2⟩ | ⟨h1, h2⟩ <;>
          rcases used_cases (r := r) with ⟨h3, h4⟩ | ⟨h3, h4⟩ <;>
          simp only at h1 h2 <;> omega
      apply List.ext_getElem
      · simp [ringContents, hused']
      · intro i h1 h2
        have hi : i < sunpci_ring_used r - k := by
          simpa [ringContents, hused'] using h1
        rw [List.getElem_drop]
        simp only [ringContents, List.getElem_map, List.getElem_range, hused']
        rw [Nat.mod_add_mod, Nat.add_assoc]
    · set k := min len (sunpci_ring_used r) with hkdef
      obtain ⟨hm1, hm2⟩ := mod_two_cases hs
        (show r.tail + k < 2 * r.size by omega)
      rcases used_cases
          (r := ({ r with tail := (r.tail + k) % r.size } : Ring)) with
        ⟨h1, h2⟩ | ⟨h1, h2⟩ <;>
        rcases used_cases (r := r) with ⟨h3, h4⟩ | ⟨h3, h4⟩ <;>
        simp only at h1 h2 <;> omega

/-- Specification of a successful `sunpci_ring_skip`. -/
lemma sunpci_ring_skip_spec {r : Ring} (hwf : ringWF r) {len : Nat}
    (hlen : len ≤ sunpci_ring_used r) :
    (sunpci_ring_skip r len).1 = 0 ∧
    ringContents (sunpci_ring_skip r len).2 = (ringContents r).drop len ∧
    sunpci_ring_used (sunpci_ring_skip r len).2 =
      sunpci_ring_used r - len := by
  obtain ⟨hv, hh, ht⟩ := hwf
  have hs := ring_size_valid_pos hv
  have hule := used_le_size ⟨hv, hh, ht⟩
  have hr : sunpci_ring_skip r len =
      (0, { r with tail := (r.tail + len) % r.size }) := by
    unfold sunpci_ring_skip
    rw [if_neg (by omega)]
  rw [hr]
  have hused' : sunpci_ring_used { r with tail := (r.tail + len) % r.size } =
      sunpci_ring_used r - len := by
    obtain ⟨hm1, hm2⟩ := mod_two_cases hs
      (show r.tail + len < 2 * r.size by omega)
    rcases used_cases
        (r := ({ r with tail := (r.tail + len) % r.size } : Ring)) with
      ⟨h1, h2⟩ | ⟨h1, h2⟩ <;>
      rcases used_cases (r := r) with ⟨h3, h4⟩ | ⟨h3, h4⟩ <;>
      simp only at h1 h2 <;> omega
  refine ⟨rfl, ?_, hused'⟩
  apply List.ext_getElem
  · simp [ringContents, hused']
  · intro i h1 h2
    have hi : i < sunpci_ring_used r - len := by
      simpa [ringContents, hused'] using h1
    rw [List.getElem_drop]
    simp only [ringContents, List.getElem_map, List.getElem_range, hused']
    rw [Nat.mod_add_mod, Nat.add_assoc]

/-- Specification of `sunpci_ring_peek` for a non-degenerate length: same
bytes as read, no state change. -/
lemma sunpci_ring_peek_spec {r : Ring} (hwf : ringWF r) {len : Nat}
    (hlen : ¬len = 0) :
    (sunpci_ring_peek r len).2 =
      (ringContents r).take (min len (sunpci_ring_used r)) := by
  by_cases hz : min len (sunpci_ring_used r) = 0
  · unfold sunpci_ring_peek
    rw [if_neg hlen, if_pos hz, hz]
    simp
  · unfold sunpci_ring_peek
    rw [if_neg hlen, if_neg hz]
    exact ringCopyOut_eq_take hwf (Nat.min_le_right _ _)

/-! ## Claim C1: full/empty distinction -/

/-- The full ring reached by writing `capacity - 1` bytes into a fresh
64-byte ring: `space()` is 0 there. -/
def c1FullRing : Ring :=
  (sunpci_ring_write (sunpci_ring_init 64) (List.replicate 63 7)).2

/-- **C1 counterexample.** The claim "a write of exactly `space()` bytes
succeeds" fails at a reachable full ring: there `space() = 0`, and
`sunpci_ring_write` of 0 bytes returns `-EINVAL` (its `data.length == 0`
guard), not success. -/
theorem C1_counterexample :
    RingReachable c1FullRing ∧
    sunpci_ring_space c1FullRing = 0 ∧
    (sunpci_ring_write c1FullRing
      (List.replicate (sunpci_ring_space c1FullRing) 0)).1 = -EINVAL := by
  refine ⟨RingReachable.write _ _ (RingReachable.init 64 (by decide)),
    by decide, by decide⟩

/-- **C1 (amended).** For every reachable head/tail state of a ring of valid
capacity, `space() + used() = capacity - 1`; whenever `space() > 0`, a write
of exactly `space()` bytes succeeds (returns its length and appends the data
to the ring contents); and a write of `space() + 1` bytes fails with
`-ENOSPC`, leaving the ring unchanged. -/
theorem C1_ring_full_empty_distinction (r : Ring) (h : RingReachable r) :
    sunpci_ring_space r + sunpci_ring_used r = r.size - 1 ∧
    (0 < sunpci_ring_space r → ∀ data : List Nat,
      data.length = sunpci_ring_space r →
      (sunpci_ring_write r data).1 = (data.length : Int) ∧
      ringContents (sunpci_ring_write r data).2 = ringContents r ++ data) ∧
    (∀ data : List Nat, data.length = sunpci_ring_space r + 1 →
      sunpci_ring_write r data = (-ENOSPC, r)) := by
  have hwf := ringReachable_wf h
  refine ⟨space_add_used hwf, ?_, ?_⟩
  · intro hpos data hlen
    have hne : ¬data.length = 0 := by omega
    have hfit : ¬data.length > sunpci_ring_space r := by omega
    exact ⟨sunpci_ring_write_ret hne hfit,
      sunpci_ring_write_contents hwf hne hfit⟩
  · intro data hlen
    unfold sunpci_ring_write
    rw [if_neg (by omega), if_pos (by omega)]

/-- Witness for C1 at a concrete fresh 64-byte ring. -/
theorem C1_witness :
    sunpci_ring_space (sunpci_ring_init 64) +
      sunpci_ring_used (sunpci_ring_init 64) = 64 - 1 ∧
    (sunpci_ring_write (sunpci_ring_init 64) (List.replicate 63 1)).1 =
      ((63 : Nat) : Int) ∧
    sunpci_ring_write (sunpci_ring_init 64) (List.replicate 64 1) =
      (-ENOSPC, sunpci_ring_init 64) := by
  have h := C1_ring_full_empty_distinction (sunpci_ring_init 64)
    (RingReachable.init 64 (by decide))
  refine ⟨h.1, ?_, h.2.2 _ (by decide)⟩
  have h2 := (h.2.1 (by decide) (List.replicate 63 1) (by decide)).1
  simpa using h2

/-! ## Claim C2: FIFO behaviour of interleaved writes and reads -/

/-- One ring operation in a test sequence. -/
inductive RWOp where
  | write (data : List Nat)
  | read (len : Nat)
  deriving DecidableEq

/-- Run a sequence of operations against the ring, collecting the bytes
each read returns. -/
def ringRunOps : List RWOp → Ring → Ring × List (List Nat)
  | [], r => (r, [])
  | .write d :: rest, r => ringRunOps rest (sunpci_ring_write r d).2
  | .read n :: rest, r =>
    let res := sunpci_ring_read r n
    let rec' := ringRunOps rest res.2.2
    (rec'.1, res.2.1 :: rec'.2)

/-- The functional FIFO model: a byte queue. Writes append; a read of `n`
returns and removes the first `min n (queue length)` bytes. -/
def queueRunOps : List RWOp → List Nat → List Nat × List (List Nat)
  | [], q => (q, [])
  | .write d :: rest, q => queueRunOps rest (q ++ d)
  | .read n :: rest, q =>
    let k := min n q.length
    let rec' := queueRunOps rest (q.drop k)
    (rec'.1, q.take k :: rec'.2)

/-- Side condition of the claim: writes are nonempty and the outstanding
byte count never exceeds `capacity - 1`; reads are nonzero. `q` tracks the
outstanding byte count. -/
def opsWf (cap : Nat) : List RWOp → Nat → Bool
  | [], _ => true
  | .write d :: rest, q =>
    (d.length != 0) && decide (q + d.length ≤ cap - 1) &&
      opsWf cap rest (q + d.length)
  | .read n :: rest, q => (n != 0) && opsWf cap rest (q - min n q)

/-- Total bytes submitted by the write operations of a sequence. -/
def totalWritten : List RWOp → Nat
  | [] => 0
  | .write d :: rest => d.length + totalWritten rest
  | .read _ :: rest => totalWritten rest

lemma queueRunOps_len (ops : List RWOp) (q : List Nat) :
    (queueRunOps ops q).1.length +
      ((queueRunOps ops q).2.map List.length).sum =
    q.length + totalWritten ops := by
  induction ops generalizing q with
  | nil => simp [queueRunOps, totalWritten]
  | cons op rest ih =>
    cases op with
    | write d =>
      have := ih (q ++ d)
      simp only [queueRunOps, totalWritten, List.length_append] at this ⊢
      omega
    | read n =>
      have := ih (q.drop (min n q.length))
      simp only [queueRunOps, totalWritten, List.map_cons, List.sum_cons,
        List.length_drop, List.length_take] at this ⊢
      omega

/-- Simulation: under the claim's side condition the ring tracks the FIFO
queue exactly (same contents, same read outputs). -/
lemma ringRunOps_sim (ops : List RWOp) (r : Ring) (q : List Nat)
    (hre : RingReachable r) (hc : ringContents r = q)
    (hwf : opsWf r.size ops q.length = true) :
    ringContents (ringRunOps ops r).1 = (queueRunOps ops q).1 ∧
    (ringRunOps ops r).2 = (queueRunOps ops q).2 ∧
    RingReachable (ringRunOps ops r).1 := by
  induction ops generalizing r q with
  | nil => exact ⟨hc, rfl, hre⟩
  | cons op rest ih =>
    have hwfr := ringReachable_wf hre
    have hused : sunpci_ring_used r = q.length := by
      rw [← hc, ringContents_length]
    cases op with
    | write d =>
      simp only [opsWf, Bool.and_eq_true, bne_iff_ne, ne_eq,
        decide_eq_true_eq] at hwf
      obtain ⟨⟨hne, hle⟩, hrest⟩ := hwf
      have hsu := space_add_used hwfr
      have hfit : ¬d.length > sunpci_ring_space r := by omega
      have hcont := sunpci_ring_write_contents hwfr hne hfit
      have hsz := sunpci_ring_write_size r d
      have := ih (sunpci_ring_write r d).2 (q ++ d)
        (RingReachable.write _ _ hre) (by rw [hcont, hc])
        (by rw [hsz, List.length_append]; exact hrest)
      simpa only [ringRunOps, queueRunOps] using this
    | read n =>
      simp only [opsWf, Bool.and_eq_true, bne_iff_ne, ne_eq] at hwf
      obtain ⟨hne, hrest⟩ := hwf
      obtain ⟨_, hbytes, hcont, husd⟩ := sunpci_ring_read_spec hwfr hne
      have hsz := sunpci_ring_read_size r n
      have hmin : min n (sunpci_ring_used r) = min n q.length := by
        rw [hused]
      have hih := ih (sunpci_ring_read r n).2.2 (q.drop (min n q.length))
        (RingReachable.read _ _ hre)
        (by rw [hcont, hc, hmin])
        (by
          rw [hsz, List.length_drop]
          have : q.length - min n q.length = q.length - min n q.length := rfl
          simpa using hrest)
      refine ⟨?_, ?_, ?_⟩
      · simpa only [ringRunOps, queueRunOps] using hih.1
      · simp only [ringRunOps, queueRunOps]
        refine congrArg₂ List.cons ?_ hih.2.1
        rw [hbytes, hc, hmin]
      · simpa only [ringRunOps] using hih.2.2

/-- **C2.** For every valid capacity and every sequence of interleaved
nonempty writes and nonzero reads whose outstanding bytes never exceed
`capacity - 1`: the ring behaves exactly like a FIFO byte queue — the bytes
returned by the reads are the previously written bytes in FIFO order
(including writes/reads that straddle the end of the buffer and wrap), the
final `used()` equals total bytes written minus total bytes read, where the
bytes read are the concatenated read outputs. -/
theorem C2_ring_fifo_order (cap : Nat) (ops : List RWOp)
    (hcap : ring_size_valid cap = true)
    (hwf : opsWf cap ops 0 = true) :
    (ringRunOps ops (sunpci_ring_init cap)).2 = (queueRunOps ops []).2 ∧
    sunpci_ring_used (ringRunOps ops (sunpci_ring_init cap)).1 =
      totalWritten ops -
        (((ringRunOps ops (sunpci_ring_init cap)).2.map List.length).sum) ∧
    ringContents (ringRunOps ops (sunpci_ring_init cap)).1 =
      (queueRunOps ops []).1 := by
  have hinit : ringContents (sunpci_ring_init cap) = [] := by
    simp [ringContents, sunpci_ring_init, sunpci_ring_used]
  have hsim := ringRunOps_sim ops (sunpci_ring_init cap) []
    (RingReachable.init cap hcap) hinit (by simpa using hwf)
  obtain ⟨hcont, houts, hre⟩ := hsim
  have hlen := queueRunOps_len ops []
  refine ⟨houts, ?_, hcont⟩
  rw [houts]
  have : sunpci_ring_used (ringRunOps ops (sunpci_ring_init cap)).1 =
      (queueRunOps ops []).1.length := by
    rw [← ringContents_length, hcont]
  simp only [List.length_nil, Nat.zero_add] at hlen
  omega

/-- Witness for C2: a concrete 64-byte ring sequence in which both the
second write and the second read straddle the end of the buffer. -/
theorem C2_witness :
    (ringRunOps
        [RWOp.write (List.range 40), RWOp.read 30,
         RWOp.write (List.range' 100 40), RWOp.read 50]
        (sunpci_ring_init 64)).2 =
      (queueRunOps
        [RWOp.write (List.range 40), RWOp.read 30,
         RWOp.write (List.range' 100 40), RWOp.read 50] []).2 ∧
    sunpci_ring_used
        (ringRunOps
          [RWOp.write (List.range 40), RWOp.read 30,
           RWOp.write (List.range' 100 40), RWOp.read 50]
          (sunpci_ring_init 64)).1 =
      totalWritten
          [RWOp.write (List.range 40), RWOp.read 30,
           RWOp.write (List.range' 100 40), RWOp.read 50] -
        (((ringRunOps
            [RWOp.write (List.range 40), RWOp.read 30,
             RWOp.write (List.range' 100 40), RWOp.read 50]
            (sunpci_ring_init 64)).2.map List.length).sum) := by
  have h := C2_ring_fifo_order 64
    [RWOp.write (List.range 40), RWOp.read 30,
     RWOp.write (List.range' 100 40), RWOp.read 50]
    (by decide) (by decide)
  exact ⟨h.1, h.2.1⟩

/-! ## IPC response reception (`src/driver/src/ipc.c`, `sunpci_ipc_recv_rsp`)

Little-endian field extraction from a peeked 16-byte header, and the
polling loop itself.  The loop is modelled with explicit fuel: one unit per
iteration of the C `do { ... } while (timeout && time_before(...))` loop;
running out of fuel is the `-ETIMEDOUT`/`-EAGAIN` exit, modelled as `none`. -/

def le16At (bs : List Nat) (off : Nat) : Nat :=
  bs.getD off 0 + 256 * bs.getD (off + 1) 0

def le32At (bs : List Nat) (off : Nat) : Nat :=
  bs.getD off 0 + 256 * bs.getD (off + 1) 0 +
    65536 * bs.getD (off + 2) 0 + 16777216 * bs.getD (off + 3) 0

/-- `SUNPCI_MSG_MAGIC` ("SPCI"). -/
def SUNPCI_MSG_MAGIC : Nat := 0x53504349

/-- `sunpci_ipc_recv_rsp`.  Returns `(some (status, sequence, payloadLen,
payload), ring')` on success, `(none, ring')` when the poll budget runs
out.  The sequence of ring operations mirrors the C exactly: peek a
16-byte header; on bad magic skip one byte and retry; with a nonzero
`expected` sequence filter, skip a whole non-matching frame
(header + declared payload) and retry; once the full frame is buffered,
consume the header, read `min buflen payloadLen` payload bytes and skip
the rest. -/
def sunpci_ipc_recv_rsp (expected buflen : Nat) :
    Nat → Ring → Option (Nat × Nat × Nat × List Nat) × Ring
  | 0, r => (none, r)
  | fuel + 1, r =>
    if 16 ≤ sunpci_ring_used r then
      if le32At (sunpci_ring_peek r 16).2 0 ≠ SUNPCI_MSG_MAGIC then
        sunpci_ipc_recv_rsp expected buflen fuel (sunpci_ring_skip r 1).2
      else if expected ≠ 0 ∧
          le32At (sunpci_ring_peek r 16).2 8 ≠ expected then
        sunpci_ipc_recv_rsp expected buflen fuel
          (sunpci_ring_skip r (16 + le32At (sunpci_ring_peek r 16).2 12)).2
      else if 16 + le32At (sunpci_ring_peek r 16).2 12 ≤
          sunpci_ring_used r then
        let hdr := (sunpci_ring_peek r 16).2
        let plen := le32At hdr 12
        let r1 := (sunpci_ring_skip r 16).2
        let copyLen := min buflen plen
        let payload :=
          if 0 < copyLen then (sunpci_ring_read r1 copyLen).2.1 else []
        let r2 :=
          if 0 < copyLen then (sunpci_ring_read r1 copyLen).2.2 else r1
        let r3 :=
          if copyLen < plen then (sunpci_ring_skip r2 (plen - copyLen)).2
          else r2
        (some (le16At hdr 4, le32At hdr 8, plen, payload), r3)
      else sunpci_ipc_recv_rsp expected buflen fuel r
    else sunpci_ipc_recv_rsp expected buflen fuel r

/-- One loop iteration with a bad magic skips exactly one byte and retries
from the new offset. -/
lemma recv_rsp_bad_magic_step (expected buflen fuel : Nat) (r : Ring)
    (hused : 16 ≤ sunpci_ring_used r)
    (hmagic : le32At (sunpci_ring_peek r 16).2 0 ≠ SUNPCI_MSG_MAGIC) :
    sunpci_ipc_recv_rsp expected buflen (fuel + 1) r =
      sunpci_ipc_recv_rsp expected buflen fuel (sunpci_ring_skip r 1).2 := by
  simp only [sunpci_ipc_recv_rsp]
  rw [if_pos hused, if_pos hmagic]

/-- One loop iteration on a well-formed frame whose sequence differs from a
nonzero `expected` skips the whole frame (header plus declared payload)
without delivering it, and retries. -/
lemma recv_rsp_seq_skip_step (expected buflen fuel : Nat) (r : Ring)
    (hused : 16 ≤ sunpci_ring_used r)
    (hmagic : le32At (sunpci_ring_peek r 16).2 0 = SUNPCI_MSG_MAGIC)
    (hexp : expected ≠ 0)
    (hseq : le32At (sunpci_ring_peek r 16).2 8 ≠ expected) :
    sunpci_ipc_recv_rsp expected buflen (fuel + 1) r =
      sunpci_ipc_recv_rsp expected buflen fuel
        (sunpci_ring_skip r (16 + le32At (sunpci_ring_peek r 16).2 12)).2 := by
  simp only [sunpci_ipc_recv_rsp]
  rw [if_pos hused, if_neg (by simpa using hmagic), if_pos ⟨hexp, hseq⟩]

/-- Whenever `sunpci_ipc_recv_rsp` delivers a frame under a nonzero
sequence filter, the delivered frame's sequence equals the filter. -/
lemma recv_rsp_seq_matches (expected buflen : Nat) (hexp : expected ≠ 0) :
    ∀ (fuel : Nat) (r : Ring) (out : Nat × Nat × Nat × List Nat),
      (sunpci_ipc_recv_rsp expected buflen fuel r).1 = some out →
      out.2.1 = expected := by
  intro fuel
  induction fuel with
  | zero => intro r out h; simp [sunpci_ipc_recv_rsp] at h
  | succ fuel ih =>
    intro r out h
    rw [sunpci_ipc_recv_rsp] at h
    by_cases h1 : 16 ≤ sunpci_ring_used r
    · rw [if_pos h1] at h
      by_cases h2 : le32At (sunpci_ring_peek r 16).2 0 ≠ SUNPCI_MSG_MAGIC
      · rw [if_pos h2] at h
        exact ih _ out h
      · rw [if_neg h2] at h
        by_cases h3 : le32At (sunpci_ring_peek r 16).2 8 ≠ expected
        · rw [if_pos ⟨hexp, h3⟩] at h
          exact ih _ out h
        · push_neg at h3
          rw [if_neg (by simp [h3])] at h
          by_cases h4 : 16 + le32At (sunpci_ring_peek r 16).2 12 ≤
              sunpci_ring_used r
          · rw [if_pos h4] at h
            simp only [Option.some_inj] at h
            rw [← h]
            exact h3
          · rw [if_neg h4] at h
            exact ih _ out h
    · rw [if_neg h1] at h
      exact ih _ out h

/-! ## Claims C3 and C4 -/

/-- A well-formed response frame: magic "SPCI" (little-endian bytes),
status 5, sequence 1, payload length 3, followed by its 3 payload bytes. -/
def c3GoodFrame : List Nat :=
  [0x49, 0x43, 0x50, 0x53, 5, 0, 0, 0, 1, 0, 0, 0, 3, 0, 0, 0] ++
    [170, 187, 204]

/-- Ring holding one corrupted (all-zero, hence bad-magic) frame header
followed by the well-formed frame. -/
def c3Ring : Ring :=
  (sunpci_ring_write (sunpci_ring_init 64)
    (List.replicate 16 0 ++ c3GoodFrame)).2

/-- **C3.** (i) Whenever `sunpci_ipc_recv_rsp` peeks a header whose magic
differs from `SUNPCI_MSG_MAGIC`, the iteration skips exactly one byte of
the ring and retries magic detection at the new offset.  (ii) Consequently,
on a ring whose contents are one corrupted (bad-magic) frame header
followed by a well-formed frame, it returns the well-formed frame (status
5, sequence 1, payload `[170, 187, 204]`) rather than failing permanently. -/
theorem C3_bad_magic_resynchronization :
    (∀ (expected buflen fuel : Nat) (r : Ring),
      16 ≤ sunpci_ring_used r →
      le32At (sunpci_ring_peek r 16).2 0 ≠ SUNPCI_MSG_MAGIC →
      sunpci_ipc_recv_rsp expected buflen (fuel + 1) r =
        sunpci_ipc_recv_rsp expected buflen fuel (sunpci_ring_skip r 1).2) ∧
    (sunpci_ipc_recv_rsp 1 64 20 c3Ring).1 = some (5, 1, 3, [170, 187, 204]) := by
  refine ⟨?_, by decide⟩
  intro expected buflen fuel r hused hmagic
  exact recv_rsp_bad_magic_step expected buflen fuel r hused hmagic

/-- Witness for C3 at the concrete corrupted ring: its first peeked header
has bad magic, and one iteration is exactly a one-byte skip. -/
theorem C3_witness :
    16 ≤ sunpci_ring_used c3Ring ∧
    le32At (sunpci_ring_peek c3Ring 16).2 0 ≠ SUNPCI_MSG_MAGIC ∧
    sunpci_ipc_recv_rsp 1 64 20 c3Ring =
      sunpci_ipc_recv_rsp 1 64 19 (sunpci_ring_skip c3Ring 1).2 := by
  refine ⟨by decide, by decide, ?_⟩
  exact C3_bad_magic_resynchronization.1 1 64 19 c3Ring (by decide) (by decide)

/-- Response frame with sequence 2 (status 7, 1 payload byte `9`). -/
def c4FrameB : List Nat :=
  [0x49, 0x43, 0x50, 0x53, 7, 0, 0, 0, 2, 0, 0, 0, 1, 0, 0, 0] ++ [9]

/-- Response frame with sequence 1 (status 5, 1 payload byte `8`). -/
def c4FrameA : List Nat :=
  [0x49, 0x43, 0x50, 0x53, 5, 0, 0, 0, 1, 0, 0, 0, 1, 0, 0, 0] ++ [8]

/-- Ring holding the response with sequence 2 *before* the response with
sequence 1 (out-of-order arrival). -/
def c4Ring : Ring :=
  (sunpci_ring_write (sunpci_ring_init 64) (c4FrameB ++ c4FrameA)).2

/-- **C4.** (i) With a nonzero `expected` sequence, an iteration of
`sunpci_ipc_recv_rsp` that peeks a well-formed frame whose sequence
differs skips that frame in its entirety (header plus declared payload
length) without delivering it.  (ii) Any frame it does deliver under a
nonzero filter carries exactly the expected sequence.  (iii)/(iv) On a ring
holding the response with sequence 2 before the response with sequence 1,
the receive for sequence 1 returns only the sequence-1 response and the
receive for sequence 2 returns only the sequence-2 response. -/
theorem C4_sequence_correlation :
    (∀ (expected buflen fuel : Nat) (r : Ring),
      16 ≤ sunpci_ring_used r →
      le32At (sunpci_ring_peek r 16).2 0 = SUNPCI_MSG_MAGIC →
      expected ≠ 0 →
      le32At (sunpci_ring_peek r 16).2 8 ≠ expected →
      sunpci_ipc_recv_rsp expected buflen (fuel + 1) r =
        sunpci_ipc_recv_rsp expected buflen fuel
          (sunpci_ring_skip r
            (16 + le32At (sunpci_ring_peek r 16).2 12)).2) ∧
    (∀ (expected buflen fuel : Nat) (r : Ring)
      (out : Nat × Nat × Nat × List Nat), expected ≠ 0 →
      (sunpci_ipc_recv_rsp expected buflen fuel r).1 = some out →
      out.2.1 = expected) ∧
    (sunpci_ipc_recv_rsp 1 64 3 c4Ring).1 = some (5, 1, 1, [8]) ∧
    (sunpci_ipc_recv_rsp 2 64 3 c4Ring).1 = some (7, 2, 1, [9]) := by
  refine ⟨?_, ?_, by decide, by decide⟩
  · intro expected buflen fuel r h1 h2 h3 h4
    exact recv_rsp_seq_skip_step expected buflen fuel r h1 h2 h3 h4
  · intro expected buflen fuel r out hexp h
    exact recv_rsp_seq_matches expected buflen hexp fuel r out h

/-- Witness for C4 at the concrete out-of-order ring: the first frame
(sequence 2) is skipped whole when sequence 1 is expected, and the frame
delivered for filter 1 indeed carries sequence 1. -/
theorem C4_witness :
    16 ≤ sunpci_ring_used c4Ring ∧
    le32At (sunpci_ring_peek c4Ring 16).2 0 = SUNPCI_MSG_MAGIC ∧
    le32At (sunpci_ring_peek c4Ring 16).2 8 ≠ 1 ∧
    sunpci_ipc_recv_rsp 1 64 3 c4Ring =
      sunpci_ipc_recv_rsp 1 64 2
        (sunpci_ring_skip c4Ring
          (16 + le32At (sunpci_ring_peek c4Ring 16).2 12)).2 ∧
    (5, 1, 1, ([8] : List Nat)).2.1 = 1 := by
  refine ⟨by decide, by decide, by decide, ?_, ?_⟩
  · exact C4_sequence_correlation.1 1 64 2 c4Ring (by decide) (by decide)
      (by decide) (by decide)
  · exact C4_sequence_correlation.2.1 1 64 3 c4Ring (5, 1, 1, [8])
      (by decide) (by decide)

/-! ## Storage emulation (`src/driver/src/storage.c`)

Backing files are byte stores with a size; `kernel_read` returns
`min len (size - pos)` bytes from the given position.  Where the C uses
`u32`/`u64` arithmetic that can overflow, the reductions modulo `2^32` /
`2^64` are written explicitly. -/

structure StorageFile where
  size : Nat
  bytes : Nat → Nat

/-- The bytes `kernel_read(file, buf, len, &pos)` yields (a short read past
end-of-file returns fewer than `len` bytes). -/
def kernelRead (f : StorageFile) (pos len : Nat) : List Nat :=
  (List.range (min len (f.size - pos))).map (fun i => f.bytes (pos + i))

/-- `struct sunpci_storage_dev`. -/
structure StorageDev where
  file : StorageFile
  size : Nat
  sector_size : Nat
  cylinders : Nat
  heads : Nat
  sectors : Nat
  total_sectors : Nat
  readonly : Bool
  mounted : Bool

/-- Big-endian byte extraction used by the SCSI CDB decoding. -/
def be16At (bs : List Nat) (off : Nat) : Nat :=
  256 * bs.getD off 0 + bs.getD (off + 1) 0

def be32At (bs : List Nat) (off : Nat) : Nat :=
  16777216 * bs.getD off 0 + 65536 * bs.getD (off + 1) 0 +
    256 * bs.getD (off + 2) 0 + bs.getD (off + 3) 0

/-- Big-endian serialization of a `u32` value. -/
def be32Bytes (x : Nat) : List Nat :=
  [x / 16777216 % 256, x / 65536 % 256, x / 256 % 256, x % 256]

/-- Little-endian serialization of a `u32` value. -/
def le32Bytes (x : Nat) : List Nat :=
  [x % 256, x / 256 % 256, x / 65536 % 256, x / 16777216 % 256]

/-- `storage_read_sectors`: bounds check (`u64` arithmetic) before any file
access; the `Bool` records whether the backing file was touched. -/
def storage_read_sectors (sdev : StorageDev) (lba count : Nat) :
    Int × Bool × List Nat :=
  if ¬sdev.mounted then (-ENODEV, false, [])
  else if (lba + count) % 2 ^ 64 > sdev.total_sectors then (-EINVAL, false, [])
  else
    let offset := lba * sdev.sector_size % 2 ^ 64
    let len := count * sdev.sector_size % 2 ^ 64
    if min len (sdev.file.size - offset) ≠ len then
      (-EIOERR, true, kernelRead sdev.file offset len)
    else (0, true, kernelRead sdev.file offset len)

/-- `storage_write_sectors`: read-only and bounds checks before any file
access; on success the written bytes replace the file contents at the
target offset. -/
def storage_write_sectors (sdev : StorageDev) (lba count : Nat)
    (data : List Nat) : Int × Bool × StorageDev :=
  if ¬sdev.mounted then (-ENODEV, false, sdev)
  else if sdev.readonly then (-EROFS, false, sdev)
  else if (lba + count) % 2 ^ 64 > sdev.total_sectors then (-EINVAL, false, sdev)
  else
    let offset := lba * sdev.sector_size % 2 ^ 64
    let len := count * sdev.sector_size % 2 ^ 64
    let wrote := min len (sdev.file.size - offset)
    let f' : StorageFile :=
      { sdev.file with bytes := copyAt sdev.file.bytes offset (data.take wrote) }
    if wrote ≠ len then (-EIOERR, true, { sdev with file := f' })
    else (0, true, { sdev with file := f' })

/-- `chs_to_lba`: `(cylinder * heads + head) * sectorsPerTrack + (sector - 1)`
with the C's `u32` wrap on `sector - 1` and `u64` result. -/
def chs_to_lba (cylinder head sector num_heads sectors_per_track : Nat) : Nat :=
  ((cylinder * num_heads + head) * sectors_per_track +
    (sector + (2 ^ 32 - 1)) % 2 ^ 32) % 2 ^ 64

/-- `calc_geometry`: heads-escalation table by size in MB, 63 sectors per
track, cylinders derived and clamped to 1024. -/
def calc_geometry (total_sectors sector_size : Nat) : Nat × Nat × Nat :=
  let size_mb := total_sectors * sector_size / (1024 * 1024)
  let sectors := 63
  let heads :=
    if size_mb ≤ 504 then 16
    else if size_mb ≤ 1008 then 32
    else if size_mb ≤ 2016 then 64
    else if size_mb ≤ 4032 then 128
    else 255
  let cyls := total_sectors / (heads * sectors)
  (if cyls > 1024 then 1024 else cyls, heads, sectors)

/-- `calc_floppy_geometry`: table keyed by exact byte size. -/
def calc_floppy_geometry (size : Nat) : Nat × Nat × Nat :=
  if size = 1474560 then (80, 2, 18)
  else if size = 1228800 then (80, 2, 15)
  else if size = 737280 then (80, 2, 9)
  else if size = 368640 then (40, 2, 9)
  else if size = 163840 then (40, 1, 8)
  else (80, 2, 18)

/-- The ISO-9660 signature "CD001". -/
def ISO9660_MAGIC : List Nat := [67, 68, 48, 48, 49]

/-- `validate_iso9660`: requires at least 17 sectors and "CD001" at byte
offset `16 * 2048 + 1`. -/
def validate_iso9660 (f : StorageFile) : Int :=
  if f.size < 17 * 2048 then -EINVAL
  else if (kernelRead f (16 * 2048 + 1) 5).length ≠ 5 then -EIOERR
  else if kernelRead f (16 * 2048 + 1) 5 ≠ ISO9660_MAGIC then -EINVAL
  else 0

/-- `valid_floppy_sizes` (bytes). -/
def valid_floppy_sizes : List Nat :=
  [163840, 184320, 327680, 368640, 737280, 1228800, 1474560, 2949120]

/-- `validate_floppy`: file size must match a known format exactly. -/
def validate_floppy (size : Nat) : Int :=
  if size ∈ valid_floppy_sizes then 0 else -EINVAL

/-- `SUNPCI_DISK_MAGIC` ("SPCI") at byte offset 12. -/
def SUNPCI_DISK_MAGIC : Nat := 0x53504349

/-- `validate_hdd`: private magic at offset 12, else MBR `0x55 0xAA` at
offset 510, else accepted anyway with a warning. -/
def validate_hdd (f : StorageFile) : Int :=
  if f.size < 512 then -EINVAL
  else if (kernelRead f 0 16).length ≠ 16 then -EIOERR
  else if le32At (kernelRead f 0 16) 12 = SUNPCI_DISK_MAGIC then 0
  else if (kernelRead f 510 2).length = 2 ∧
      (kernelRead f 510 2).getD 0 0 = 0x55 ∧
      (kernelRead f 510 2).getD 1 0 = 0xAA then 0
  else 0  -- pr_warn: no signature, proceeding anyway

inductive StorageType where
  | hdd | cdrom | floppy
  deriving DecidableEq

/-- `storage_open_image`: validate by device class, then fill in geometry
and mark mounted. -/
def storage_open_image (f : StorageFile) (readonly : Bool)
    (sector_size : Nat) (ty : StorageType) : Except Int StorageDev :=
  let ret : Int :=
    match ty with
    | .cdrom => validate_iso9660 f
    | .floppy => validate_floppy f.size
    | .hdd => validate_hdd f
  if ret < 0 then .error ret
  else
    let total := f.size / sector_size
    let geo :=
      match ty with
      | .floppy => calc_floppy_geometry f.size
      | _ => calc_geometry total sector_size
    .ok { file := f, size := f.size, sector_size := sector_size,
          cylinders := geo.1, heads := geo.2.1, sectors := geo.2.2,
          total_sectors := total, readonly := readonly, mounted := true }

/-- The per-device drive slots (`dev->storage`): two fixed disks, two
floppies, one CD-ROM. -/
structure StorageState where
  disks : Option StorageDev × Option StorageDev
  floppies : Option StorageDev × Option StorageDev
  cdrom : Option StorageDev

/-- `get_storage_dev`: BIOS drive number to slot. -/
def get_storage_dev (st : StorageState) (drive : Nat) : Option StorageDev :=
  if 0x80 ≤ drive ∧ drive ≤ 0x81 then
    (if drive - 0x80 = 0 then st.disks.1 else st.disks.2)
  else if drive ≤ 1 then
    (if drive = 0 then st.floppies.1 else st.floppies.2)
  else if drive = 0xE0 then st.cdrom
  else none

/-- Store an updated device back into the slot `get_storage_dev` resolved. -/
def set_storage_dev (st : StorageState) (drive : Nat) (sdev : StorageDev) :
    StorageState :=
  if 0x80 ≤ drive ∧ drive ≤ 0x81 then
    (if drive - 0x80 = 0 then { st with disks := (some sdev, st.disks.2) }
     else { st with disks := (st.disks.1, some sdev) })
  else if drive ≤ 1 then
    (if drive = 0 then { st with floppies := (some sdev, st.floppies.2) }
     else { st with floppies := (st.floppies.1, some sdev) })
  else if drive = 0xE0 then { st with cdrom := some sdev }
  else st

/-- `sunpci_storage_mount_disk` (guest-notify side effects omitted): close
whatever the slot held, then open/validate; a failed open leaves the slot
empty. -/
def sunpci_storage_mount_disk (st : StorageState) (slot : Nat)
    (f : StorageFile) (readonly : Bool) : Int × StorageState :=
  if slot > 1 then (-EINVAL, st)
  else
    let st' :=
      if slot = 0 then { st with disks := (none, st.disks.2) }
      else { st with disks := (st.disks.1, none) }
    match storage_open_image f readonly 512 .hdd with
    | .error e => (e, st')
    | .ok sdev =>
      (0, if slot = 0 then { st' with disks := (some sdev, st'.disks.2) }
          else { st' with disks := (st'.disks.1, some sdev) })

/-- `sunpci_storage_mount_cdrom`. -/
def sunpci_storage_mount_cdrom (st : StorageState) (f : StorageFile) :
    Int × StorageState :=
  let st' := { st with cdrom := none }
  match storage_open_image f true 2048 .cdrom with
  | .error e => (e, st')
  | .ok sdev => (0, { st' with cdrom := some sdev })

/-- `sunpci_storage_mount_floppy`. -/
def sunpci_storage_mount_floppy (st : StorageState) (drive : Nat)
    (f : StorageFile) : Int × StorageState :=
  if drive > 1 then (-EINVAL, st)
  else
    let st' :=
      if drive = 0 then { st with floppies := (none, st.floppies.2) }
      else { st with floppies := (st.floppies.1, none) }
    match storage_open_image f false 512 .floppy with
    | .error e => (e, st')
    | .ok sdev =>
      (0, if drive = 0 then { st' with floppies := (some sdev, st'.floppies.2) }
          else { st' with floppies := (st'.floppies.1, some sdev) })

/-! ### SCSI CD-ROM emulation -/

def SCSI_STATUS_GOOD : Nat := 0x00
def SCSI_STATUS_CHECK_CONDITION : Nat := 0x02

def SENSE_NO_SENSE : Nat := 0x00
def SENSE_NOT_READY : Nat := 0x02
def SENSE_MEDIUM_ERROR : Nat := 0x03
def SENSE_ILLEGAL_REQUEST : Nat := 0x05

def ASC_NO_ADDITIONAL_SENSE : Nat := 0x00
def ASC_INVALID_COMMAND : Nat := 0x20
def ASC_LBA_OUT_OF_RANGE : Nat := 0x21
def ASC_INVALID_FIELD_IN_CDB : Nat := 0x24
def ASC_MEDIUM_NOT_PRESENT : Nat := 0x3A

/-- `build_sense`: 18-byte fixed-format sense data (byte 2 = sense key,
byte 12 = additional sense code, byte 13 = qualifier). -/
def build_sense (key asc ascq : Nat) : List Nat :=
  [0x70, 0, key, 0, 0, 0, 0, 10, 0, 0, 0, 0, asc, ascq, 0, 0, 0, 0]

/-- `struct sunpci_scsi_rsp`. -/
structure ScsiRsp where
  status : Nat
  sense_len : Nat
  sense : List Nat
  data_len : Nat
  deriving DecidableEq

/-- `scsi_inquiry`: fixed identification block truncated to the CDB's
allocation length. -/
def scsi_inquiry (cdb : List Nat) : List Nat :=
  let response : List Nat :=
    [0x05, 0x80, 0x02, 0x02, 31, 0, 0, 0] ++
      [83, 85, 78, 32, 32, 32, 32, 32] ++            -- "SUN     "
      [86, 105, 114, 116, 117, 97, 108, 32,
       67, 68, 82, 79, 77, 32, 32, 32] ++            -- "Virtual CDROM   "
      [49, 46, 48, 32]                               -- "1.0 "
  response.take (min (cdb.getD 4 0) 36)

/-- `scsi_read_capacity`: big-endian last LBA and block size. -/
def scsi_read_capacity (sdev : StorageDev) : Int × List Nat :=
  if ¬sdev.mounted then (-ENOMEDIUM, [])
  else
    let last_lba :=
      (if 0 < sdev.total_sectors then sdev.total_sectors - 1 else 0) % 2 ^ 32
    (0, be32Bytes last_lba ++ be32Bytes 2048)

/-- `scsi_read_toc`: single data track plus lead-out at the last sector,
honoring the 2-byte allocation length. -/
def scsi_read_toc (sdev : StorageDev) (cdb : List Nat) : Int × List Nat :=
  if ¬sdev.mounted then (-ENOMEDIUM, [])
  else
    let format := cdb.getD 2 0 % 16
    if format = 0 ∨ format = 2 then
      let total := sdev.total_sectors % 2 ^ 32
      let toc : List Nat :=
        [0, 18, 1, 1, 0, 0x14, 1, 0, 0, 0, 0, 0, 0, 0x14, 0xAA, 0] ++
          be32Bytes total
      (0, toc.take (min (be16At cdb 7) 20))
    else (-EINVAL, [])

/-- The Capabilities and Mechanical Status page (2Ah) body. -/
def modePage2A : List Nat :=
  [0x2A, 18, 0x3B, 0x00, 0x7F, 0x03, 0x29, 0x00, 0x17, 0x70,
   0x01, 0x00, 0x00, 0x80, 0x17, 0x70, 0, 0, 0, 0]

/-- `scsi_mode_sense` (6- and 10-byte variants): mode parameter header
plus, when page 0x2A or all pages are requested and fit, the capabilities
page; the mode-data-length field is back-patched. -/
def scsi_mode_sense (cdb : List Nat) (is_6byte : Bool) : Int × List Nat :=
  let page_code := cdb.getD 2 0 % 64
  let alloc_len := if is_6byte then cdb.getD 4 0 else be16At cdb 7
  let header_len := if is_6byte then 4 else 8
  let withPage := (page_code = 0x2A ∨ page_code = 0x3F) ∧
    header_len + 20 ≤ alloc_len
  let offset := header_len + (if withPage then 20 else 0)
  let hdr : List Nat :=
    if is_6byte then [offset - 1, 0x05, 0x80, 0]
    else [(offset - 2) / 256 % 256, (offset - 2) % 256, 0x05, 0x80, 0, 0, 0, 0]
  (0, (hdr ++ if withPage then modePage2A else []).take (min alloc_len offset))

/-- SCSI opcodes handled by `sunpci_storage_scsi_command`. -/
def SCSI_TEST_UNIT_READY : Nat := 0x00
def SCSI_REQUEST_SENSE : Nat := 0x03
def SCSI_INQUIRY : Nat := 0x12
def SCSI_MODE_SENSE_6 : Nat := 0x1A
def SCSI_PREVENT_ALLOW_REMOVAL : Nat := 0x1E
def SCSI_READ_CAPACITY : Nat := 0x25
def SCSI_READ_10 : Nat := 0x28
def SCSI_READ_TOC : Nat := 0x43
def SCSI_GET_CONFIGURATION : Nat := 0x46
def SCSI_GET_EVENT_STATUS : Nat := 0x4A
def SCSI_READ_DISC_INFORMATION : Nat := 0x51
def SCSI_MODE_SENSE_10 : Nat := 0x5A
def SCSI_READ_12 : Nat := 0xA8

/-- A CHECK CONDITION response carrying the given sense data. -/
def scsiCheck (key asc ascq : Nat) (data_len : Nat) : ScsiRsp :=
  { status := SCSI_STATUS_CHECK_CONDITION, sense_len := 18,
    sense := build_sense key asc ascq, data_len := data_len }

/-- A GOOD response with the given transfer length. -/
def scsiGood (data_len : Nat) : ScsiRsp :=
  { status := SCSI_STATUS_GOOD, sense_len := 0, sense := [],
    data_len := data_len }

/-- `sunpci_storage_scsi_command` against the CD-ROM slot: returns the
response, whether the backing file was accessed, and the data bytes placed
in the caller's buffer (of capacity `data_len`). -/
def sunpci_storage_scsi_command (cdrom : Option StorageDev) (cdb : List Nat)
    (data_len : Nat) : ScsiRsp × Bool × List Nat :=
  let opcode := cdb.getD 0 0
  let ready : Bool := match cdrom with
    | none => false
    | some s => s.mounted
  if opcode = SCSI_TEST_UNIT_READY then
    if ¬ready then (scsiCheck SENSE_NOT_READY ASC_MEDIUM_NOT_PRESENT 0x01 0,
      false, [])
    else (scsiGood 0, false, [])
  else if opcode = SCSI_REQUEST_SENSE then
    (scsiGood (min (cdb.getD 4 0) 18), false,
      (build_sense SENSE_NO_SENSE ASC_NO_ADDITIONAL_SENSE 0).take
        (min (cdb.getD 4 0) 18))
  else if opcode = SCSI_INQUIRY then
    (scsiGood (scsi_inquiry cdb).length, false, scsi_inquiry cdb)
  else if opcode = SCSI_READ_CAPACITY then
    if ¬ready then (scsiCheck SENSE_NOT_READY ASC_MEDIUM_NOT_PRESENT 0x01 0,
      false, [])
    else
      match cdrom with
      | none => (scsiCheck SENSE_NOT_READY ASC_MEDIUM_NOT_PRESENT 0x01 0,
          false, [])
      | some sdev =>
        match scsi_read_capacity sdev with
        | (ret, data) =>
          if ret = -ENOMEDIUM then
            (scsiCheck SENSE_NOT_READY ASC_MEDIUM_NOT_PRESENT 0x01 0,
              false, [])
          else (scsiGood data.length, false, data)
  else if opcode = SCSI_READ_10 then
    match cdrom with
    | none => (scsiCheck SENSE_NOT_READY ASC_MEDIUM_NOT_PRESENT 0x01 0,
        false, [])
    | some sdev =>
      if ¬sdev.mounted then
        (scsiCheck SENSE_NOT_READY ASC_MEDIUM_NOT_PRESENT 0x01 0, false, [])
      else
        let lba := be32At cdb 2
        let count := be16At cdb 7
        if (lba + count) % 2 ^ 32 > sdev.total_sectors then
          (scsiCheck SENSE_ILLEGAL_REQUEST ASC_LBA_OUT_OF_RANGE 0 0,
            false, [])
        else
          let transfer_len :=
            if count * 2048 > data_len then data_len else count * 2048
          let count' :=
            if count * 2048 > data_len then data_len / 2048 else count
          match storage_read_sectors sdev lba count' with
          | (ret, accessed, bytes) =>
            if ret < 0 then
              (scsiCheck SENSE_MEDIUM_ERROR 0x11 0 0, accessed, [])
            else (scsiGood transfer_len, accessed, bytes)
  else if opcode = SCSI_READ_12 then
    match cdrom with
    | none => (scsiCheck SENSE_NOT_READY ASC_MEDIUM_NOT_PRESENT 0x01 0,
        false, [])
    | some sdev =>
      if ¬sdev.mounted then
        (scsiCheck SENSE_NOT_READY ASC_MEDIUM_NOT_PRESENT 0x01 0, false, [])
      else
        let lba := be32At cdb 2
        let count := be32At cdb 6
        if (lba + count) % 2 ^ 32 > sdev.total_sectors then
          (scsiCheck SENSE_ILLEGAL_REQUEST ASC_LBA_OUT_OF_RANGE 0 0,
            false, [])
        else
          let transfer_len :=
            if count * 2048 > data_len then data_len else count * 2048
          let count' :=
            if count * 2048 > data_len then data_len / 2048 else count
          match storage_read_sectors sdev lba count' with
          | (ret, accessed, bytes) =>
            if ret < 0 then
              (scsiCheck SENSE_MEDIUM_ERROR 0x11 0 0, accessed, [])
            else (scsiGood transfer_len, accessed, bytes)
  else if opcode = SCSI_READ_TOC then
    match cdrom with
    | none => (scsiCheck SENSE_NOT_READY ASC_MEDIUM_NOT_PRESENT 0x01 0,
        false, [])
    | some sdev =>
      if ¬sdev.mounted then
        (scsiCheck SENSE_NOT_READY ASC_MEDIUM_NOT_PRESENT 0x01 0, false, [])
      else
        match scsi_read_toc sdev cdb with
        | (ret, data) =>
          if ret = -ENOMEDIUM then
            (scsiCheck SENSE_NOT_READY ASC_MEDIUM_NOT_PRESENT 0x01 0,
              false, [])
          else if ret = -EINVAL then
            (scsiCheck SENSE_ILLEGAL_REQUEST ASC_INVALID_FIELD_IN_CDB 0 0,
              false, [])
          else (scsiGood data.length, false, data)
  else if opcode = SCSI_MODE_SENSE_6 then
    match scsi_mode_sense cdb true with
    | (_, data) => (scsiGood data.length, false, data)
  else if opcode = SCSI_MODE_SENSE_10 then
    match scsi_mode_sense cdb false with
    | (_, data) => (scsiGood data.length, false, data)
  else if opcode = SCSI_PREVENT_ALLOW_REMOVAL then
    (scsiGood 0, false, [])
  else
    -- GET CONFIGURATION / GET EVENT STATUS / READ DISC INFORMATION and
    -- unknown opcodes all produce CHECK CONDITION / ILLEGAL REQUEST
    (scsiCheck SENSE_ILLEGAL_REQUEST ASC_INVALID_COMMAND 0 0, false, [])

/-! ### BIOS INT 13h-style request handling -/

def STORAGE_CMD_READ : Nat := 0x0001
def STORAGE_CMD_WRITE : Nat := 0x0002
def STORAGE_CMD_VERIFY : Nat := 0x0003
def STORAGE_CMD_GET_PARAMS : Nat := 0x0005
def STORAGE_CMD_GET_TYPE : Nat := 0x0006
def STORAGE_CMD_RESET : Nat := 0x0007
def STORAGE_CMD_RECAL : Nat := 0x0008

def STORAGE_STATUS_OK : Nat := 0x00
def STORAGE_STATUS_BAD_CMD : Nat := 0x01
def STORAGE_STATUS_WRITE_PROT : Nat := 0x03
def STORAGE_STATUS_SECTOR_NF : Nat := 0x04
def STORAGE_STATUS_NO_MEDIA : Nat := 0xAA

def MAX_SECTORS_PER_IO : Nat := 128

/-- `struct sunpci_storage_req`. -/
structure StorageReq where
  drive : Nat
  command : Nat
  cylinder : Nat
  head : Nat
  sector : Nat
  count : Nat
  lba_lo : Nat
  lba_hi : Nat
  deriving DecidableEq

/-- `struct sunpci_storage_rsp`. -/
structure StorageRsp where
  status : Nat
  count : Nat
  deriving DecidableEq

/-- The LBA `sunpci_storage_handle_request` resolves: extended LBA when
either half is nonzero, CHS conversion otherwise. -/
def resolveLba (req : StorageReq) (sdev : StorageDev) : Nat :=
  if req.lba_hi ≠ 0 ∨ req.lba_lo ≠ 0 then req.lba_hi * 2 ^ 32 + req.lba_lo
  else chs_to_lba req.cylinder req.head req.sector sdev.heads sdev.sectors

/-- `sunpci_storage_handle_request`: returns the response, whether the
backing file was accessed, the data bytes produced, and the updated drive
slots (writes mutate the backing file). -/
def sunpci_storage_handle_request (st : StorageState) (req : StorageReq)
    (dataIn : List Nat) (data_len : Nat) :
    StorageRsp × Bool × List Nat × StorageState :=
  match get_storage_dev st req.drive with
  | none => (⟨STORAGE_STATUS_NO_MEDIA, 0⟩, false, [], st)
  | some sdev =>
    if ¬sdev.mounted then (⟨STORAGE_STATUS_NO_MEDIA, 0⟩, false, [], st)
    else
      let lba := resolveLba req sdev
      if req.command = STORAGE_CMD_READ then
        let count :=
          if req.count > MAX_SECTORS_PER_IO then MAX_SECTORS_PER_IO
          else req.count
        if data_len < count * sdev.sector_size then
          (⟨STORAGE_STATUS_BAD_CMD, 0⟩, false, [], st)
        else
          match storage_read_sectors sdev lba count with
          | (ret, accessed, bytes) =>
            if ret < 0 then
              (⟨STORAGE_STATUS_SECTOR_NF, 0⟩, accessed, [], st)
            else (⟨STORAGE_STATUS_OK, count⟩, accessed, bytes, st)
      else if req.command = STORAGE_CMD_WRITE then
        let count :=
          if req.count > MAX_SECTORS_PER_IO then MAX_SECTORS_PER_IO
          else req.count
        match storage_write_sectors sdev lba count dataIn with
        | (ret, accessed, sdev') =>
          if ret = -EROFS then
            (⟨STORAGE_STATUS_WRITE_PROT, 0⟩, accessed, [], st)
          else if ret < 0 then
            (⟨STORAGE_STATUS_SECTOR_NF, 0⟩, accessed, [], st)
          else (⟨STORAGE_STATUS_OK, count⟩, accessed, [],
            set_storage_dev st req.drive sdev')
      else if req.command = STORAGE_CMD_VERIFY then
        if (lba + req.count) % 2 ^ 64 ≤ sdev.total_sectors then
          (⟨STORAGE_STATUS_OK, req.count⟩, false, [], st)
        else (⟨STORAGE_STATUS_SECTOR_NF, 0⟩, false, [], st)
      else if req.command = STORAGE_CMD_RESET ∨
          req.command = STORAGE_CMD_RECAL then
        (⟨STORAGE_STATUS_OK, 0⟩, false, [], st)
      else if req.command = STORAGE_CMD_GET_PARAMS then
        let params :=
          le32Bytes (if req.drive ≥ 0x80 then 3 else 4) ++
          le32Bytes sdev.cylinders ++ le32Bytes sdev.heads ++
          le32Bytes sdev.sectors ++
          le32Bytes (sdev.total_sectors % 2 ^ 32) ++
          le32Bytes (sdev.total_sectors / 2 ^ 32 % 2 ^ 32) ++
          le32Bytes sdev.sector_size
        (⟨STORAGE_STATUS_OK, 28⟩, false, params, st)
      else if req.command = STORAGE_CMD_GET_TYPE then
        (⟨STORAGE_STATUS_OK,
          if req.drive ≥ 0xE0 then 5 else if req.drive ≥ 0x80 then 3 else 4⟩,
          false, [], st)
      else (⟨STORAGE_STATUS_BAD_CMD, 0⟩, false, [], st)

/-! ## Claim C5: read bounds checking -/

/-- A mounted 500-sector fixed disk backed by a zero-filled 256000-byte
image. -/
def c5File : StorageFile := ⟨256000, fun _ => 0⟩

def c5Dev : StorageDev :=
  ⟨c5File, 256000, 512, 0, 16, 63, 500, false, true⟩

def c5State : StorageState := ⟨(some c5Dev, none), (none, none), none⟩

/-- **C5 counterexample.** A BIOS read with `lba = 0`, `count = 600` on a
500-sector disk has `lba + count > totalSectors`, yet the code first caps
`count` at 128, then succeeds with status OK and reads the backing file —
the claim's "rejected and the backing image file is never accessed" fails. -/
theorem C5_counterexample :
    (0 : Nat) + 600 > c5Dev.total_sectors ∧
    (sunpci_storage_handle_request c5State
      ⟨0x80, STORAGE_CMD_READ, 0, 0, 1, 600, 0, 0⟩ [] 65536).1 =
      ⟨STORAGE_STATUS_OK, 128⟩ ∧
    (sunpci_storage_handle_request c5State
      ⟨0x80, STORAGE_CMD_READ, 0, 0, 1, 600, 0, 0⟩ [] 65536).2.1 = true := by
  exact ⟨by decide, by decide, by decide⟩

/-- **C5 (amended).** (i) The BIOS read path first caps `count` at 128
(`MAX_SECTORS_PER_IO`); a read whose capped `lba + count` still exceeds
`totalSectors` is rejected with the sector-not-found status and the backing
file is never accessed.  (ii)/(iii) The SCSI READ(10)/READ(12) paths reject
every request whose `lba + count`, computed in 32-bit arithmetic as the
code does, exceeds `totalSectors`, with CHECK CONDITION and sense key
ILLEGAL REQUEST / ASC LBA-out-of-range, never touching the file.  (iv) A
READ(10) whose 32-bit sum wraps below `totalSectors` but whose true
`lba + count` is out of range is still rejected without file access, with
sense MEDIUM ERROR instead.  (v) The sense bytes carry the key at offset 2
and the ASC at offset 12. -/
theorem C5_read_bounds_rejection :
    (∀ (st : StorageState) (req : StorageReq) (sdev : StorageDev)
      (dataIn : List Nat) (data_len : Nat),
      get_storage_dev st req.drive = some sdev →
      sdev.mounted = true →
      req.command = STORAGE_CMD_READ →
      ¬data_len <
        (if req.count > MAX_SECTORS_PER_IO then MAX_SECTORS_PER_IO
         else req.count) * sdev.sector_size →
      (resolveLba req sdev +
        (if req.count > MAX_SECTORS_PER_IO then MAX_SECTORS_PER_IO
         else req.count)) % 2 ^ 64 > sdev.total_sectors →
      sunpci_storage_handle_request st req dataIn data_len =
        (⟨STORAGE_STATUS_SECTOR_NF, 0⟩, false, [], st)) ∧
    (∀ (sdev : StorageDev) (cdb : List Nat) (data_len : Nat),
      sdev.mounted = true →
      cdb.getD 0 0 = SCSI_READ_10 →
      (be32At cdb 2 + be16At cdb 7) % 2 ^ 32 > sdev.total_sectors →
      sunpci_storage_scsi_command (some sdev) cdb data_len =
        (scsiCheck SENSE_ILLEGAL_REQUEST ASC_LBA_OUT_OF_RANGE 0 0,
          false, [])) ∧
    (∀ (sdev : StorageDev) (cdb : List Nat) (data_len : Nat),
      sdev.mounted = true →
      cdb.getD 0 0 = SCSI_READ_12 →
      (be32At cdb 2 + be32At cdb 6) % 2 ^ 32 > sdev.total_sectors →
      sunpci_storage_scsi_command (some sdev) cdb data_len =
        (scsiCheck SENSE_ILLEGAL_REQUEST ASC_LBA_OUT_OF_RANGE 0 0,
          false, [])) ∧
    (∀ (sdev : StorageDev) (cdb : List Nat) (data_len : Nat),
      sdev.mounted = true →
      cdb.getD 0 0 = SCSI_READ_10 →
      ¬(be32At cdb 2 + be16At cdb 7) % 2 ^ 32 > sdev.total_sectors →
      (be32At cdb 2 +
        (if be16At cdb 7 * 2048 > data_len then data_len / 2048
         else be16At cdb 7)) % 2 ^ 64 > sdev.total_sectors →
      sunpci_storage_scsi_command (some sdev) cdb data_len =
        (scsiCheck SENSE_MEDIUM_ERROR 0x11 0 0, false, [])) ∧
    (∀ key asc ascq n : Nat,
      (scsiCheck key asc ascq n).sense.getD 2 0 = key ∧
      (scsiCheck key asc ascq n).sense.getD 12 0 = asc) := by
  refine ⟨?_, ?_, ?_, ?_, ?_⟩
  · intro st req sdev dataIn data_len hget hm hcmd hdl hbound
    have hread : storage_read_sectors sdev (resolveLba req sdev)
        (if req.count > MAX_SECTORS_PER_IO then MAX_SECTORS_PER_IO
         else req.count) = (-EINVAL, false, []) := by
      unfold storage_read_sectors
      rw [if_neg (by simp [hm]), if_pos hbound]
    simp only [sunpci_storage_handle_request, hget, hm, hcmd]
    rw [if_pos trivial, if_neg hdl, hread]
    norm_num [EINVAL]
  · intro sdev cdb data_len hm hop hbound
    simp only [sunpci_storage_scsi_command, hop]
    rw [if_neg (show ¬SCSI_READ_10 = SCSI_TEST_UNIT_READY by decide),
      if_neg (show ¬SCSI_READ_10 = SCSI_REQUEST_SENSE by decide),
      if_neg (show ¬SCSI_READ_10 = SCSI_INQUIRY by decide),
      if_neg (show ¬SCSI_READ_10 = SCSI_READ_CAPACITY by decide),
      if_true,
      if_neg (show ¬(¬sdev.mounted = true) by simp [hm]),
      if_pos hbound]
  · intro sdev cdb data_len hm hop hbound
    simp only [sunpci_storage_scsi_command, hop]
    rw [if_neg (show ¬SCSI_READ_12 = SCSI_TEST_UNIT_READY by decide),
      if_neg (show ¬SCSI_READ_12 = SCSI_REQUEST_SENSE by decide),
      if_neg (show ¬SCSI_READ_12 = SCSI_INQUIRY by decide),
      if_neg (show ¬SCSI_READ_12 = SCSI_READ_CAPACITY by decide),
      if_neg (show ¬SCSI_READ_12 = SCSI_READ_10 by decide),
      if_true,
      if_neg (show ¬(¬sdev.mounted = true) by simp [hm]),
      if_pos hbound]
  · intro sdev cdb data_len hm hop hb32 hb64
    have hread : storage_read_sectors sdev (be32At cdb 2)
        (if be16At cdb 7 * 2048 > data_len then data_len / 2048
         else be16At cdb 7) = (-EINVAL, false, []) := by
      unfold storage_read_sectors
      rw [if_neg (by simp [hm]), if_pos hb64]
    simp only [sunpci_storage_scsi_command, hop]
    rw [if_neg (show ¬SCSI_READ_10 = SCSI_TEST_UNIT_READY by decide),
      if_neg (show ¬SCSI_READ_10 = SCSI_REQUEST_SENSE by decide),
      if_neg (show ¬SCSI_READ_10 = SCSI_INQUIRY by decide),
      if_neg (show ¬SCSI_READ_10 = SCSI_READ_CAPACITY by decide),
      if_true,
      if_neg (show ¬(¬sdev.mounted = true) by simp [hm]),
      if_neg hb32, hread]
    dsimp only
    rw [if_pos (show (-EINVAL : Int) < 0 by norm_num [EINVAL])]
  · intro key asc ascq n
    exact ⟨rfl, rfl⟩

/-- A mounted 100-sector optical device (2048-byte sectors). -/
def c5Cdrom : StorageDev :=
  ⟨⟨204800, fun _ => 0⟩, 204800, 2048, 0, 16, 63, 100, true, true⟩

/-- Witness for C5: concrete rejected reads on each path. -/
theorem C5_witness :
    sunpci_storage_handle_request c5State
        ⟨0x80, STORAGE_CMD_READ, 0, 0, 0, 50, 480, 0⟩ [] 65536 =
      (⟨STORAGE_STATUS_SECTOR_NF, 0⟩, false, [], c5State) ∧
    sunpci_storage_scsi_command (some c5Cdrom)
        [0x28, 0, 0, 0, 0, 200, 0, 0, 60, 0] 65536 =
      (scsiCheck SENSE_ILLEGAL_REQUEST ASC_LBA_OUT_OF_RANGE 0 0,
        false, []) ∧
    sunpci_storage_scsi_command (some c5Cdrom)
        [0xA8, 0, 0, 0, 0, 200, 0, 0, 0, 60, 0, 0] 65536 =
      (scsiCheck SENSE_ILLEGAL_REQUEST ASC_LBA_OUT_OF_RANGE 0 0,
        false, []) ∧
    sunpci_storage_scsi_command (some c5Cdrom)
        [0x28, 0, 255, 255, 255, 255, 0, 0, 2, 0] 65536 =
      (scsiCheck SENSE_MEDIUM_ERROR 0x11 0 0, false, []) := by
  refine ⟨?_, ?_, ?_, ?_⟩
  · exact C5_read_bounds_rejection.1 c5State
      ⟨0x80, STORAGE_CMD_READ, 0, 0, 0, 50, 480, 0⟩ c5Dev [] 65536
      rfl (by decide) (by decide) (by decide) (by decide)
  · exact C5_read_bounds_rejection.2.1 c5Cdrom
      [0x28, 0, 0, 0, 0, 200, 0, 0, 60, 0] 65536
      (by decide) (by decide) (by decide)
  · exact C5_read_bounds_rejection.2.2.1 c5Cdrom
      [0xA8, 0, 0, 0, 0, 200, 0, 0, 0, 60, 0, 0] 65536
      (by decide) (by decide) (by decide)
  · exact C5_read_bounds_rejection.2.2.2.1 c5Cdrom
      [0x28, 0, 255, 255, 255, 255, 0, 0, 2, 0] 65536
      (by decide) (by decide) (by decide) (by decide)

/-! ## Claim C6: CHS ↔ LBA round trip -/

/-- Modelled from the spec: the inverse CHS decomposition of a linear block
address for a geometry with `H` heads and `S` sectors per track (the source
has no lba-to-chs function; the spec states the conversion is invertible
with 1-based sectors). -/
def lba_to_chs (lba num_heads sectors_per_track : Nat) : Nat × Nat × Nat :=
  (lba / (num_heads * sectors_per_track),
   lba / sectors_per_track % num_heads,
   lba % sectors_per_track + 1)

/-- **C6.** `chs_to_lba` computes
`(cylinder * heads + head) * sectorsPerTrack + (sector - 1)` for 1-based
sectors, and for every geometry with positive `H`, `S` the conversion is
invertible: decomposing any in-range `lba` into its CHS triple and
converting back recovers `lba`. -/
theorem C6_chs_lba_roundtrip :
    (∀ c h s H S : Nat, 1 ≤ s → s < 2 ^ 32 →
      (c * H + h) * S + (s - 1) < 2 ^ 64 →
      chs_to_lba c h s H S = (c * H + h) * S + (s - 1)) ∧
    (∀ C H S lba : Nat, 0 < H → 0 < S → S < 2 ^ 32 →
      lba < C * H * S → lba < 2 ^ 64 →
      chs_to_lba (lba_to_chs lba H S).1 (lba_to_chs lba H S).2.1
        (lba_to_chs lba H S).2.2 H S = lba) := by
  have hform : ∀ c h s H S : Nat, 1 ≤ s → s < 2 ^ 32 →
      (c * H + h) * S + (s - 1) < 2 ^ 64 →
      chs_to_lba c h s H S = (c * H + h) * S + (s - 1) := by
    intro c h s H S h1 h2 h3
    unfold chs_to_lba
    have hsm : (s + (2 ^ 32 - 1)) % 2 ^ 32 = s - 1 := by
      have he : s + (2 ^ 32 - 1) = (s - 1) + 2 ^ 32 := by omega
      rw [he, Nat.add_mod_right, Nat.mod_eq_of_lt (by omega)]
    rw [hsm, Nat.mod_eq_of_lt h3]
  refine ⟨hform, ?_⟩
  intro C H S lba hH hS hS32 _ hlba
  have hdec : (lba / (H * S) * H + lba / S % H) * S + lba % S = lba := by
    have h1 : lba / S / H = lba / (S * H) := Nat.div_div_eq_div_mul lba S H
    have h2 : lba / S / H * H + lba / S % H = lba / S := by
      have := Nat.div_add_mod (lba / S) H
      rw [Nat.mul_comm] at this
      exact this
    have h3 : lba / S * S + lba % S = lba := by
      have := Nat.div_add_mod lba S
      rw [Nat.mul_comm] at this
      exact this
    calc (lba / (H * S) * H + lba / S % H) * S + lba % S
        = (lba / (S * H) * H + lba / S % H) * S + lba % S := by
          rw [Nat.mul_comm H S]
      _ = (lba / S / H * H + lba / S % H) * S + lba % S := by rw [h1]
      _ = lba / S * S + lba % S := by rw [h2]
      _ = lba := h3
  have hs1 : 1 ≤ lba % S + 1 := by omega
  have hs2 : lba % S + 1 < 2 ^ 32 := by
    have := Nat.mod_lt lba hS
    omega
  have hlt : (lba / (H * S) * H + lba / S % H) * S + (lba % S + 1 - 1) <
      2 ^ 64 := by
    have : lba % S + 1 - 1 = lba % S := by omega
    rw [this, hdec]; exact hlba
  have := hform (lba / (H * S)) (lba / S % H) (lba % S + 1) H S hs1 hs2 hlt
  simp only [lba_to_chs]
  rw [this]
  have : lba % S + 1 - 1 = lba % S := by omega
  rw [this, hdec]

/-- Witness for C6 at the geometry (1024, 16, 63) and `lba = 123456`. -/
theorem C6_witness :
    chs_to_lba 2 3 4 16 63 = (2 * 16 + 3) * 63 + (4 - 1) ∧
    chs_to_lba (lba_to_chs 123456 16 63).1 (lba_to_chs 123456 16 63).2.1
      (lba_to_chs 123456 16 63).2.2 16 63 = 123456 := by
  refine ⟨?_, ?_⟩
  · exact C6_chs_lba_roundtrip.1 2 3 4 16 63 (by decide) (by decide) (by decide)
  · exact C6_chs_lba_roundtrip.2 1024 16 63 123456 (by decide) (by decide)
      (by decide) (by decide) (by decide)

/-! ## Claim C7: image-format validation at mount time -/

/-- **C7.** (i) An optical image whose 5 bytes at offset `16*2048 + 1` are
not "CD001" (including images too short to hold them) is rejected, the
mount fails, and the CD-ROM slot is left empty.  (ii) A floppy image whose
byte size is not in the enumerated capacity table is rejected, the mount
fails, and the floppy slot is left empty.  (iii) A fixed-disk image of at
least one sector carrying the MBR signature `0x55 0xAA` at offset 510 is
accepted even without the private magic at offset 12: the mount succeeds
and leaves a mounted device in the slot. -/
theorem C7_image_format_validation :
    (∀ (f : StorageFile) (st : StorageState),
      kernelRead f (16 * 2048 + 1) 5 ≠ ISO9660_MAGIC →
      validate_iso9660 f < 0 ∧
      (sunpci_storage_mount_cdrom st f).1 < 0 ∧
      (sunpci_storage_mount_cdrom st f).2.cdrom = none) ∧
    (∀ (f : StorageFile) (st : StorageState) (drive : Nat),
      drive ≤ 1 →
      f.size ∉ valid_floppy_sizes →
      validate_floppy f.size < 0 ∧
      (sunpci_storage_mount_floppy st drive f).1 < 0 ∧
      get_storage_dev (sunpci_storage_mount_floppy st drive f).2 drive =
        none) ∧
    (∀ (f : StorageFile) (st : StorageState) (slot : Nat) (ro : Bool),
      slot ≤ 1 →
      512 ≤ f.size →
      le32At (kernelRead f 0 16) 12 ≠ SUNPCI_DISK_MAGIC →
      (kernelRead f 510 2).getD 0 0 = 0x55 →
      (kernelRead f 510 2).getD 1 0 = 0xAA →
      validate_hdd f = 0 ∧
      (sunpci_storage_mount_disk st slot f ro).1 = 0 ∧
      ∃ sdev, get_storage_dev (sunpci_storage_mount_disk st slot f ro).2
        (0x80 + slot) = some sdev ∧ sdev.mounted = true) := by
  refine ⟨?_, ?_, ?_⟩
  · intro f st hmagic
    have hval : validate_iso9660 f < 0 := by
      unfold validate_iso9660
      by_cases h1 : f.size < 17 * 2048
      · rw [if_pos h1]; norm_num [EINVAL]
      · rw [if_neg h1]
        have hlen : (kernelRead f (16 * 2048 + 1) 5).length = 5 := by
          simp only [kernelRead, List.length_map, List.length_range]
          omega
        rw [if_neg (by simp [hlen]), if_pos hmagic]
        norm_num [EINVAL]
    have hopen : storage_open_image f true 2048 .cdrom =
        .error (validate_iso9660 f) := by
      unfold storage_open_image
      rw [if_pos hval]
    refine ⟨hval, ?_, ?_⟩
    · simp only [sunpci_storage_mount_cdrom]
      rw [hopen]
      exact hval
    · simp only [sunpci_storage_mount_cdrom]
      rw [hopen]
  · intro f st drive hdrive hsize
    have hval : validate_floppy f.size < 0 := by
      unfold validate_floppy
      rw [if_neg hsize]
      norm_num [EINVAL]
    have hopen : storage_open_image f false 512 .floppy =
        .error (validate_floppy f.size) := by
      unfold storage_open_image
      rw [if_pos hval]
    refine ⟨hval, ?_, ?_⟩
    · simp only [sunpci_storage_mount_floppy]
      rw [if_neg (by omega), hopen]
      exact hval
    · simp only [sunpci_storage_mount_floppy]
      rw [if_neg (by omega), hopen]
      by_cases hd : drive = 0
      · subst hd
        simp [get_storage_dev]
      · have hd1 : drive = 1 := by omega
        subst hd1
        simp [get_storage_dev]
  · intro f st slot ro hslot hsize hnomagic h55 haa
    have hval : validate_hdd f = 0 := by
      unfold validate_hdd
      have hlen16 : (kernelRead f 0 16).length = 16 := by
        simp only [kernelRead, List.length_map, List.length_range]
        omega
      have hlen2 : (kernelRead f 510 2).length = 2 := by
        simp only [kernelRead, List.length_map, List.length_range]
        omega
      rw [if_neg (by omega), if_neg (by simp [hlen16]), if_neg hnomagic,
        if_pos ⟨hlen2, h55, haa⟩]
    have hopen : storage_open_image f ro 512 .hdd =
        .ok ⟨f, f.size, 512, (calc_geometry (f.size / 512) 512).1,
          (calc_geometry (f.size / 512) 512).2.1,
          (calc_geometry (f.size / 512) 512).2.2,
          f.size / 512, ro, true⟩ := by
      unfold storage_open_image
      rw [if_neg (by dsimp only; rw [hval]; norm_num)]
    refine ⟨hval, ?_, ?_⟩
    · simp only [sunpci_storage_mount_disk]
      rw [if_neg (by omega), hopen]
    · simp only [sunpci_storage_mount_disk]
      rw [if_neg (by omega), hopen]
      by_cases hs : slot = 0
      · subst hs
        exact ⟨_, rfl, rfl⟩
      · have hs1 : slot = 1 := by omega
        subst hs1
        exact ⟨_, rfl, rfl⟩

/-- A 40000-byte image with no ISO signature. -/
def c7IsoBad : StorageFile := ⟨40000, fun _ => 0⟩

/-- A 1,000,000-byte floppy image (not an enumerated capacity). -/
def c7Floppy : StorageFile := ⟨1000000, fun _ => 0⟩

/-- A one-sector disk image with the MBR signature but no private magic. -/
def c7Mbr : StorageFile :=
  ⟨512, fun i => if i = 510 then 0x55 else if i = 511 then 0xAA else 0⟩

def c7EmptyState : StorageState := ⟨(none, none), (none, none), none⟩

/-- Witness for C7 at the three concrete images. -/
theorem C7_witness :
    validate_iso9660 c7IsoBad < 0 ∧
    (sunpci_storage_mount_cdrom c7EmptyState c7IsoBad).2.cdrom = none ∧
    validate_floppy c7Floppy.size < 0 ∧
    get_storage_dev
      (sunpci_storage_mount_floppy c7EmptyState 0 c7Floppy).2 0 = none ∧
    validate_hdd c7Mbr = 0 ∧
    (sunpci_storage_mount_disk c7EmptyState 0 c7Mbr false).1 = 0 := by
  have ha := C7_image_format_validation.1 c7IsoBad c7EmptyState (by decide)
  have hb := C7_image_format_validation.2.1 c7Floppy c7EmptyState 0
    (by decide) (by decide)
  have hc := C7_image_format_validation.2.2 c7Mbr c7EmptyState 0 false
    (by decide) (by decide) (by decide) (by decide) (by decide)
  exact ⟨ha.1, ha.2.2, hb.1, hb.2.2, hc.1, hc.2.1⟩

/-! ## Named channels (`src/driver/src/channel.c`) -/

/-- ASCII codes of a literal channel name. -/
def strBytes (s : String) : List Nat := s.toList.map Char.toNat

def MAX_CHANNELS : Nat := 16
def SUNPCI_CHANNEL_NAME_MAX : Nat := 64
def CHANNEL_FLAG_EXCLUSIVE : Nat := 0x0001

/-- `struct sunpci_channel` (the name as its ASCII codes). -/
structure Channel where
  id : Nat
  dispatcher : Nat
  flags : Nat
  active : Bool
  name : List Nat
  deriving DecidableEq

/-- A zeroed slot. -/
def emptyChannel : Channel := ⟨0, 0, 0, false, []⟩

/-- `struct sunpci_channel_registry`. -/
structure ChannelRegistry where
  next_id : Nat
  channels : List Channel
  deriving DecidableEq

/-- `sunpci_channel_init`: zeroed slot table, id counter starts at 1. -/
def sunpci_channel_init : ChannelRegistry :=
  ⟨1, List.replicate MAX_CHANNELS emptyChannel⟩

/-- `utf16le_to_ascii`: at most 64 code units, stop at a NUL, code points
above 127 become `'?'` (63). -/
def utf16le_to_ascii (units : List Nat) (len_bytes : Nat) : List Nat :=
  ((units.take (min (len_bytes / 2) SUNPCI_CHANNEL_NAME_MAX)).takeWhile
      (fun c => c != 0)).map
    (fun c => if c > 127 then 63 else c)

/-- Lower-case an ASCII code (for `strcasecmp`). -/
def asciiLower (c : Nat) : Nat := if 65 ≤ c ∧ c ≤ 90 then c + 32 else c

/-- `known_channels`: well-known names and their dispatcher ids
(`SUNPCI_DISP_STORAGE = 8`, `VGA = 1`, `VIDEO = 2`, `NETWORK = 4`,
`FSD = 5`, `CLIP = 7`). -/
def known_channels : List (List Nat × Nat) :=
  [(strBytes "NewInt13Dispatcher", 8),
   (strBytes "VGADispatcher", 1),
   (strBytes "VideoDispatcher", 2),
   (strBytes "NetworkDispatcher", 4),
   (strBytes "FSDDispatcher", 5),
   (strBytes "ClipboardDispatcher", 7)]

/-- `channel_name_to_dispatcher`: case-insensitive lookup in the
well-known table. -/
def channel_name_to_dispatcher (name : List Nat) : Option Nat :=
  (known_channels.find?
    (fun p => p.1.map asciiLower == name.map asciiLower)).map (·.2)

/-- `sunpci_channel_create`: decode the name; unknown names fail with
status 2; an existing active channel of the same name returns status 3
(with id 0) if it was created exclusive, else status 0 with the existing
id; otherwise allocate the next id from the first free slot (status 4 if
none).  Returns `((status, channel_id), registry')`. -/
def sunpci_channel_create (reg : ChannelRegistry) (flags : Nat)
    (nameUnits : List Nat) (name_len : Nat) :
    (Nat × Nat) × ChannelRegistry :=
  let name := utf16le_to_ascii nameUnits name_len
  match channel_name_to_dispatcher name with
  | none => ((2, 0), reg)
  | some dispatcher =>
    match reg.channels.findIdx? (fun ch => ch.active && ch.name == name) with
    | some i =>
      let ch := reg.channels.getD i emptyChannel
      if ch.flags &&& CHANNEL_FLAG_EXCLUSIVE ≠ 0 then ((3, 0), reg)
      else ((0, ch.id), reg)
    | none =>
      match reg.channels.findIdx? (fun ch => !ch.active) with
      | none => ((4, 0), reg)
      | some i =>
        ((0, reg.next_id),
          ⟨(reg.next_id + 1) % 2 ^ 32,
           reg.channels.set i ⟨reg.next_id, dispatcher, flags, true, name⟩⟩)

/-- `sunpci_channel_delete`: zero the slot holding the id; `-ENOENT` if no
active channel has it.  The id counter is not touched. -/
def sunpci_channel_delete (reg : ChannelRegistry) (channel_id : Nat) :
    Int × ChannelRegistry :=
  match reg.channels.findIdx? (fun ch => ch.active && ch.id == channel_id) with
  | some i => (0, ⟨reg.next_id, reg.channels.set i emptyChannel⟩)
  | none => (-ENOENT, reg)

/-- Registry well-formedness used by C8: every active channel's name is a
known channel name (true of every registry the driver builds, since
creation requires a successful lookup). -/
def regWF (reg : ChannelRegistry) : Prop :=
  ∀ ch ∈ reg.channels, ch.active = true →
    (channel_name_to_dispatcher ch.name).isSome

lemma regWF_init : regWF sunpci_channel_init := by
  intro ch hch hact
  simp [sunpci_channel_init, List.eq_of_mem_replicate hch, emptyChannel] at hact

lemma regWF_create (reg : ChannelRegistry) (flags : Nat)
    (nameUnits : List Nat) (name_len : Nat) (h : regWF reg) :
    regWF (sunpci_channel_create reg flags nameUnits name_len).2 := by
  unfold sunpci_channel_create
  dsimp only
  cases hlk : channel_name_to_dispatcher (utf16le_to_ascii nameUnits name_len) with
  | none => exact h
  | some d =>
    cases hdup : reg.channels.findIdx?
        (fun ch => ch.active && ch.name == utf16le_to_ascii nameUnits name_len) with
    | some i =>
      dsimp only
      split
      · exact h
      · exact h
    | none =>
      cases hfree : reg.channels.findIdx? (fun ch => !ch.active) with
      | none => exact h
      | some i =>
        dsimp only
        intro ch hch hact
        rcases List.mem_or_eq_of_mem_set hch with hmem | heq
        · exact h ch hmem hact
        · subst heq
          simp [hlk]

lemma regWF_delete (reg : ChannelRegistry) (channel_id : Nat)
    (h : regWF reg) :
    regWF (sunpci_channel_delete reg channel_id).2 := by
  unfold sunpci_channel_delete
  cases hfind : reg.channels.findIdx?
      (fun ch => ch.active && ch.id == channel_id) with
  | none => exact h
  | some i =>
    dsimp only
    intro ch hch hact
    rcases List.mem_or_eq_of_mem_set hch with hmem | heq
    · exact h ch hmem hact
    · subst heq
      simp [emptyChannel] at hact

/-! ## Claim C8: duplicate channel creation -/

/-- **C8.** For every registry (with the invariant that active channels
carry known names) and every create request whose decoded name matches the
first active channel found with that exact name: if that channel was
created with the exclusive flag, create returns status 3 ("already
exists") with channel id 0 and the registry is unchanged; if it is
non-exclusive, create returns status 0 with the existing channel's id and
the registry is unchanged. -/
theorem C8_channel_duplicate_create (reg : ChannelRegistry) (flags : Nat)
    (nameUnits : List Nat) (name_len : Nat) (i : Nat) (ch : Channel)
    (hwf : regWF reg)
    (hdup : reg.channels.findIdx?
      (fun c => c.active && c.name == utf16le_to_ascii nameUnits name_len) =
      some i)
    (hch : reg.channels.getD i emptyChannel = ch) :
    (ch.flags &&& CHANNEL_FLAG_EXCLUSIVE ≠ 0 →
      sunpci_channel_create reg flags nameUnits name_len = ((3, 0), reg)) ∧
    (ch.flags &&& CHANNEL_FLAG_EXCLUSIVE = 0 →
      sunpci_channel_create reg flags nameUnits name_len =
        ((0, ch.id), reg)) := by
  obtain ⟨hlt, hp, -⟩ := List.findIdx?_eq_some_iff_getElem.mp hdup
  simp only [Bool.and_eq_true, beq_iff_eq] at hp
  have hknown := hwf _ (List.getElem_mem hlt) hp.1
  obtain ⟨d, hd⟩ := Option.isSome_iff_exists.mp hknown
  have hd' : channel_name_to_dispatcher
      (utf16le_to_ascii nameUnits name_len) = some d := by
    rw [← hp.2]; exact hd
  constructor <;> intro hflag <;>
    · unfold sunpci_channel_create
      dsimp only
      rw [hd']
      dsimp only
      rw [hdup]
      dsimp only
      rw [hch]
      first
        | rw [if_pos hflag]
        | rw [if_neg (by simp [hflag])]

/-- Registry holding an active *exclusive* channel named "VGADispatcher"
(id 1). -/
def c8ExclusiveReg : ChannelRegistry :=
  ⟨2, ⟨1, 1, 1, true, strBytes "VGADispatcher"⟩ ::
    List.replicate 15 emptyChannel⟩

/-- Registry holding an active *non-exclusive* channel named
"VGADispatcher" (id 1). -/
def c8SharedReg : ChannelRegistry :=
  ⟨2, ⟨1, 1, 0, true, strBytes "VGADispatcher"⟩ ::
    List.replicate 15 emptyChannel⟩

/-- The UTF-16 code units of "VGADispatcher" (all ASCII). -/
def c8NameUnits : List Nat := strBytes "VGADispatcher"

/-- Witness for C8: a duplicate create against the exclusive registry
fails with status 3 / id 0; against the non-exclusive registry it returns
the existing id 1. -/
theorem C8_witness :
    sunpci_channel_create c8ExclusiveReg 0 c8NameUnits 26 =
      ((3, 0), c8ExclusiveReg) ∧
    sunpci_channel_create c8SharedReg 0 c8NameUnits 26 =
      ((0, 1), c8SharedReg) := by
  constructor
  · exact (C8_channel_duplicate_create c8ExclusiveReg 0 c8NameUnits 26 0
      ⟨1, 1, 1, true, strBytes "VGADispatcher"⟩
      (by unfold regWF; decide) (by decide) (by decide)).1 (by decide)
  · exact (C8_channel_duplicate_create c8SharedReg 0 c8NameUnits 26 0
      ⟨1, 1, 0, true, strBytes "VGADispatcher"⟩
      (by unfold regWF; decide) (by decide) (by decide)).2 (by decide)

/-! ## Claim C10: channel id allocation -/

/-- Guest-visible registry operations. -/
inductive ChOp where
  | create (flags : Nat) (nameUnits : List Nat) (name_len : Nat)
  | delete (id : Nat)

/-- Run a sequence of channel operations, collecting the ids assigned by
the creates that allocated a new channel (detected by the id counter
moving, which happens exactly in the allocation branch). -/
def runChOps : List ChOp → ChannelRegistry → ChannelRegistry × List Nat
  | [], reg => (reg, [])
  | .create f u l :: rest, reg =>
    let res := sunpci_channel_create reg f u l
    let rec' := runChOps rest res.2
    (rec'.1, (if res.2.next_id ≠ reg.next_id then [res.1.2] else []) ++ rec'.2)
  | .delete i :: rest, reg => runChOps rest (sunpci_channel_delete reg i).2

/-- Distinctness of the ids of two slots, when both are active. -/
def chanPred (a b : Channel) : Prop :=
  a.active = true → b.active = true → a.id ≠ b.id

/-- The id-allocation invariant: the counter is in `[1, 2^32)`, every
active id is nonzero and below the counter, and active ids are pairwise
distinct. -/
def regInv (reg : ChannelRegistry) : Prop :=
  0 < reg.next_id ∧ reg.next_id < 2 ^ 32 ∧
  (∀ ch ∈ reg.channels, ch.active = true →
    0 < ch.id ∧ ch.id < reg.next_id) ∧
  List.Pairwise chanPred reg.channels

lemma regInv_init : regInv sunpci_channel_init := by
  refine ⟨Nat.one_pos, by norm_num [sunpci_channel_init], ?_, ?_⟩
  · intro ch hch hact
    have := List.eq_of_mem_replicate
      (show ch ∈ List.replicate MAX_CHANNELS emptyChannel from hch)
    subst this
    simp [emptyChannel] at hact
  · rw [List.pairwise_iff_getElem]
    intro a b ha hb hab
    have h1 : sunpci_channel_init.channels[a] = emptyChannel :=
      List.getElem_replicate ..
    have h2 : sunpci_channel_init.channels[b] = emptyChannel :=
      List.getElem_replicate ..
    rw [h1, h2]
    exact fun h => by simp [emptyChannel] at h

lemma pairwise_set {l : List Channel} {i : Nat} {c : Channel}
    (hp : List.Pairwise chanPred l)
    (hc : ∀ ch ∈ l, chanPred c ch ∧ chanPred ch c) :
    List.Pairwise chanPred (l.set i c) := by
  rw [List.pairwise_iff_getElem] at hp ⊢
  intro a b ha hb hab
  simp only [List.length_set] at ha hb
  rw [List.getElem_set, List.getElem_set]
  split
  · split
    · omega
    · exact (hc _ (List.getElem_mem hb)).1
  · split
    · exact (hc _ (List.getElem_mem ha)).2
    · exact hp a b ha hb hab

lemma regInv_delete (reg : ChannelRegistry) (channel_id : Nat)
    (h : regInv reg) : regInv (sunpci_channel_delete reg channel_id).2 := by
  obtain ⟨h1, h2, h3, h4⟩ := h
  unfold sunpci_channel_delete
  cases hf : reg.channels.findIdx?
      (fun ch => ch.active && ch.id == channel_id) with
  | none => exact ⟨h1, h2, h3, h4⟩
  | some i =>
    dsimp only
    refine ⟨h1, h2, ?_, ?_⟩
    · intro ch hch hact
      rcases List.mem_or_eq_of_mem_set hch with hmem | heq
      · exact h3 ch hmem hact
      · subst heq
        simp [emptyChannel] at hact
    · refine pairwise_set h4 ?_
      intro ch _
      constructor
      · exact fun hact => by simp [emptyChannel] at hact
      · exact fun _ hact => by simp [emptyChannel] at hact

lemma sunpci_channel_delete_next_id (reg : ChannelRegistry)
    (channel_id : Nat) :
    (sunpci_channel_delete reg channel_id).2.next_id = reg.next_id := by
  unfold sunpci_channel_delete
  cases hf : reg.channels.findIdx?
      (fun ch => ch.active && ch.id == channel_id) with
  | none => rfl
  | some i => rfl

/-- Either a create leaves the registry untouched (unknown name,
duplicate, or slot exhaustion), or it allocates: it returns
`(0, next_id)`, bumps the counter modulo `2^32`, and — when the counter
has room — preserves the id invariant. -/
lemma sunpci_channel_create_cases (reg : ChannelRegistry) (f : Nat)
    (u : List Nat) (l : Nat) :
    (sunpci_channel_create reg f u l).2 = reg ∨
    ((sunpci_channel_create reg f u l).1 = (0, reg.next_id) ∧
     (sunpci_channel_create reg f u l).2.next_id =
       (reg.next_id + 1) % 2 ^ 32 ∧
     (regInv reg → reg.next_id + 1 < 2 ^ 32 →
       regInv (sunpci_channel_create reg f u l).2)) := by
  unfold sunpci_channel_create
  dsimp only
  cases hlk : channel_name_to_dispatcher (utf16le_to_ascii u l) with
  | none => exact .inl rfl
  | some d =>
    cases hdup : reg.channels.findIdx?
        (fun ch => ch.active && ch.name == utf16le_to_ascii u l) with
    | some i =>
      dsimp only
      split
      · exact .inl rfl
      · exact .inl rfl
    | none =>
      cases hfree : reg.channels.findIdx? (fun ch => !ch.active) with
      | none => exact .inl rfl
      | some i =>
        dsimp only
        refine .inr ⟨rfl, rfl, ?_⟩
        intro hinv hroom
        obtain ⟨h1, h2, h3, h4⟩ := hinv
        have hmod : (reg.next_id + 1) % 2 ^ 32 = reg.next_id + 1 :=
          Nat.mod_eq_of_lt hroom
        refine ⟨?_, ?_, ?_, ?_⟩
        · show 0 < (reg.next_id + 1) % 2 ^ 32
          omega
        · show (reg.next_id + 1) % 2 ^ 32 < 2 ^ 32
          omega
        · intro ch hch hact
          rcases List.mem_or_eq_of_mem_set hch with hmem | heq
          · have := h3 ch hmem hact
            show 0 < ch.id ∧ ch.id < (reg.next_id + 1) % 2 ^ 32
            omega
          · subst heq
            show 0 < reg.next_id ∧ reg.next_id < (reg.next_id + 1) % 2 ^ 32
            omega
        · refine pairwise_set h4 ?_
          intro ch hmem
          constructor
          · exact fun _ hact =>
              ((by have := h3 ch hmem hact; omega) : reg.next_id ≠ ch.id)
          · exact fun hact _ =>
              ((by have := h3 ch hmem hact; omega) : ch.id ≠ reg.next_id)

/-- Main allocation lemma: as long as the number of allocations performed
by a run keeps the 32-bit id counter from wrapping, the invariant is
preserved, the counter counts the allocations, and the allocated ids are
exactly the consecutive block starting at the initial counter value. -/
lemma runChOps_spec : ∀ (ops : List ChOp) (reg : ChannelRegistry),
    regInv reg →
    reg.next_id + (runChOps ops reg).2.length ≤ 2 ^ 32 - 1 →
    regInv (runChOps ops reg).1 ∧
    ∃ k, (runChOps ops reg).2 = List.range' reg.next_id k ∧
      (runChOps ops reg).1.next_id = reg.next_id + k := by
  intro ops
  induction ops with
  | nil =>
    intro reg hinv hk
    exact ⟨hinv, 0, by simp [runChOps], by simp [runChOps]⟩
  | cons op rest ih =>
    intro reg hinv hk
    cases op with
    | delete i =>
      have heq : runChOps (ChOp.delete i :: rest) reg =
          runChOps rest (sunpci_channel_delete reg i).2 := rfl
      rw [heq] at hk ⊢
      have hnid := sunpci_channel_delete_next_id reg i
      obtain ⟨hinvf, k, hk1, hk2⟩ := ih (sunpci_channel_delete reg i).2
        (regInv_delete reg i hinv) (by rw [hnid]; exact hk)
      exact ⟨hinvf, k, by rw [hk1, hnid], by rw [hk2, hnid]⟩
    | create f u l =>
      rcases sunpci_channel_create_cases reg f u l with hsame | ⟨hres, hnid, hpres⟩
      · have hnid : (sunpci_channel_create reg f u l).2.next_id =
            reg.next_id := by rw [hsame]
        have heq : runChOps (ChOp.create f u l :: rest) reg =
            runChOps rest (sunpci_channel_create reg f u l).2 := by
          simp only [runChOps]
          rw [if_neg (by simp [hnid])]
          simp
        rw [heq, hsame] at hk ⊢
        exact ih reg hinv hk
      · have hneq : (sunpci_channel_create reg f u l).2.next_id ≠
            reg.next_id := by
          rw [hnid]
          rcases Nat.lt_or_ge (reg.next_id + 1) (2 ^ 32) with hlt | hge
          · rw [Nat.mod_eq_of_lt hlt]
            omega
          · have h2 := hinv.2.1
            have h1 := hinv.1
            have he : reg.next_id + 1 = 2 ^ 32 := by omega
            rw [he]
            simp
            omega
        have heq : runChOps (ChOp.create f u l :: rest) reg =
            ((runChOps rest (sunpci_channel_create reg f u l).2).1,
             (sunpci_channel_create reg f u l).1.2 ::
               (runChOps rest (sunpci_channel_create reg f u l).2).2) := by
          simp only [runChOps]
          rw [if_pos hneq]
          simp
        rw [heq] at hk ⊢
        simp only [List.length_cons] at hk
        have hroom : reg.next_id + 1 < 2 ^ 32 := by omega
        have hmod : (reg.next_id + 1) % 2 ^ 32 = reg.next_id + 1 :=
          Nat.mod_eq_of_lt hroom
        have hinv' := hpres hinv hroom
        have hk' : (sunpci_channel_create reg f u l).2.next_id +
            (runChOps rest (sunpci_channel_create reg f u l).2).2.length ≤
            2 ^ 32 - 1 := by
          rw [hnid, hmod]
          omega
        obtain ⟨hinvf, k, hk1, hk2⟩ := ih _ hinv' hk'
        have hid : (sunpci_channel_create reg f u l).1.2 = reg.next_id := by
          rw [hres]
        refine ⟨hinvf, k + 1, ?_, ?_⟩
        · show _ :: _ = _
          rw [hk1, hnid, hmod, hid, List.range'_succ]
        · rw [hk2, hnid, hmod]
          omega

/-- **C10 counterexample.** The 32-bit id counter wraps: starting from a
fresh registry, the first create allocates id 1; after `2^32 - 1`
create/delete cycles the counter reaches 0, and the next successful create
assigns id 0 — not greater than the previously assigned id 1, and a live
channel now carries the id 0, so ids are neither monotonic nor nonzero
forever. -/
def c10Create (reg : ChannelRegistry) : (Nat × Nat) × ChannelRegistry :=
  sunpci_channel_create reg 0 (strBytes "VGADispatcher") 26

def c10CycleStep (reg : ChannelRegistry) : ChannelRegistry :=
  (sunpci_channel_delete (c10Create reg).2 (c10Create reg).1.2).2

def c10Cycles : Nat → ChannelRegistry → ChannelRegistry
  | 0, reg => reg
  | k + 1, reg => c10Cycles k (c10CycleStep reg)

lemma c10_cycle_step (n : Nat) :
    c10CycleStep ⟨n, List.replicate 16 emptyChannel⟩ =
      ⟨(n + 1) % 2 ^ 32, List.replicate 16 emptyChannel⟩ := by
  have hcr : c10Create ⟨n, List.replicate 16 emptyChannel⟩ =
      ((0, n), ⟨(n + 1) % 2 ^ 32,
        (List.replicate 16 emptyChannel).set 0
          ⟨n, 1, 0, true,
            utf16le_to_ascii (strBytes "VGADispatcher") 26⟩⟩) := rfl
  unfold c10CycleStep
  rw [hcr]
  dsimp only
  have hset : (List.replicate 16 emptyChannel).set 0
      ⟨n, 1, 0, true, utf16le_to_ascii (strBytes "VGADispatcher") 26⟩ =
      ⟨n, 1, 0, true, utf16le_to_ascii (strBytes "VGADispatcher") 26⟩ ::
        List.replicate 15 emptyChannel := rfl
  unfold sunpci_channel_delete
  rw [hset, List.findIdx?_cons]
  simp only [beq_self_eq_true, Bool.and_true, if_true]
  rfl

lemma c10_cycles_eq : ∀ (k n : Nat), n < 2 ^ 32 →
    c10Cycles k ⟨n, List.replicate 16 emptyChannel⟩ =
      ⟨(n + k) % 2 ^ 32, List.replicate 16 emptyChannel⟩ := by
  intro k
  induction k with
  | zero =>
    intro n hn
    simp only [c10Cycles]
    congr 1
    omega
  | succ k ih =>
    intro n hn
    show c10Cycles k (c10CycleStep ⟨n, List.replicate 16 emptyChannel⟩) = _
    rw [c10_cycle_step n, ih ((n + 1) % 2 ^ 32) (Nat.mod_lt _ (by norm_num)),
      Nat.mod_add_mod]
    congr 1
    omega

def c10WrapReg : ChannelRegistry := c10Cycles (2 ^ 32 - 1) sunpci_channel_init

/-- The counterexample itself: id 1 is assigned first; after the cycles a
successful create assigns id 0, and the registry holds an active channel
with id 0. -/
theorem C10_counterexample :
    (sunpci_channel_create sunpci_channel_init 0
      (strBytes "VGADispatcher") 26).1 = (0, 1) ∧
    (c10Create c10WrapReg).1 = (0, 0) ∧
    ∃ ch ∈ (c10Create c10WrapReg).2.channels,
      ch.active = true ∧ ch.id = 0 := by
  have hwrap : c10WrapReg = ⟨0, List.replicate 16 emptyChannel⟩ := by
    have h := c10_cycles_eq (2 ^ 32 - 1) 1 (by norm_num)
    have h0 : (1 + (2 ^ 32 - 1)) % 2 ^ 32 = 0 := by norm_num
    rw [h0] at h
    simpa [c10WrapReg, sunpci_channel_init, MAX_CHANNELS] using h
  refine ⟨by decide, ?_, ?_⟩
  · rw [hwrap]
    decide
  · rw [hwrap]
    decide

/-- **C10 (amended).** Provided the run performs fewer than `2^32 - 1` id
allocations (so the 32-bit id counter never wraps), every successful
create assigns an id strictly greater than every id assigned before it
(the allocation trace is strictly increasing), delete never recycles an id
into the counter, and all active channels hold pairwise-distinct nonzero
ids. -/
theorem C10_channel_id_monotonic (ops : List ChOp)
    (hk : (runChOps ops sunpci_channel_init).2.length < 2 ^ 32 - 1) :
    List.Pairwise (· < ·) (runChOps ops sunpci_channel_init).2 ∧
    (∀ ch ∈ (runChOps ops sunpci_channel_init).1.channels,
      ch.active = true → ch.id ≠ 0) ∧
    List.Pairwise chanPred (runChOps ops sunpci_channel_init).1.channels := by
  obtain ⟨hinvf, k, hk1, -⟩ := runChOps_spec ops sunpci_channel_init
    regInv_init
    (show sunpci_channel_init.next_id +
        (runChOps ops sunpci_channel_init).2.length ≤ 2 ^ 32 - 1 by
      show 1 + _ ≤ 2 ^ 32 - 1
      omega)
  refine ⟨?_, ?_, hinvf.2.2.2⟩
  · rw [hk1]
    exact List.pairwise_lt_range' ..
  · intro ch hch hact
    have := hinvf.2.2.1 ch hch hact
    omega

/-- Witness for C10: a short concrete run (create, create, delete, create)
allocates ids 1, 2, 3 in strictly increasing order. -/
theorem C10_witness :
    List.Pairwise (· < ·)
      (runChOps
        [ChOp.create 0 (strBytes "VGADispatcher") 26,
         ChOp.create 0 (strBytes "NewInt13Dispatcher") 36,
         ChOp.delete 1,
         ChOp.create 0 (strBytes "VGADispatcher") 26]
        sunpci_channel_init).2 ∧
    (∀ ch ∈ (runChOps
        [ChOp.create 0 (strBytes "VGADispatcher") 26,
         ChOp.create 0 (strBytes "NewInt13Dispatcher") 36,
         ChOp.delete 1,
         ChOp.create 0 (strBytes "VGADispatcher") 26]
        sunpci_channel_init).1.channels,
      ch.active = true → ch.id ≠ 0) := by
  have h := C10_channel_id_monotonic
    [ChOp.create 0 (strBytes "VGADispatcher") 26,
     ChOp.create 0 (strBytes "NewInt13Dispatcher") 36,
     ChOp.delete 1,
     ChOp.create 0 (strBytes "VGADispatcher") 26]
    (by decide)
  exact ⟨h.1, h.2.1⟩

/-! ## Session lifecycle (`src/driver/src/ioctl.c`)

`enum sunpci_state` and the state-affecting parts of the session ioctls.
Each ioctl returns its errno result and the session state it leaves
behind; config storage, disk-path bookkeeping and subsystem teardown are
orthogonal to claim C9 and omitted. -/

inductive SunpciState where
  | stopped | starting | running | stopping | error
  deriving DecidableEq

/-- `ioctl_start_session`: config is validated (1..256 MB) before any
state is touched; then the session must currently be `Stopped`. -/
def ioctl_start_session (st : SunpciState) (memory_mb : Nat) :
    Int × SunpciState :=
  if memory_mb < 1 ∨ memory_mb > 256 then (-EINVAL, st)
  else if st ≠ SunpciState.stopped then (-EBUSY, st)
  else (0, SunpciState.running)

/-- `ioctl_stop_session`: rejected only when already `Stopped`. -/
def ioctl_stop_session (st : SunpciState) : Int × SunpciState :=
  if st = SunpciState.stopped then (-EINVAL, st)
  else (0, SunpciState.stopped)

/-- `ioctl_reset_session`: rejected unless currently `Running` (a soft
reboot; the state stays `Running`). -/
def ioctl_reset_session (st : SunpciState) : Int × SunpciState :=
  if st ≠ SunpciState.running then (-EINVAL, st)
  else (0, SunpciState.running)

/-! ## Claim C9: session lifecycle gating -/

/-- **C9 counterexample.** From the `Error` state — which is not
`Running` — `ioctl_stop_session` succeeds (returns 0 and stops the
session) instead of being rejected as the claim requires. -/
theorem C9_counterexample :
    SunpciState.error ≠ SunpciState.running ∧
    ioctl_stop_session SunpciState.error = (0, SunpciState.stopped) := by
  decide

/-- **C9 (amended).** `start` is rejected unless the state is `Stopped`
(`-EBUSY`; an invalid memory size is rejected with `-EINVAL` even from
`Stopped`); `stop` is rejected (`-EINVAL`) only when the state is already
`Stopped` and is accepted from `Starting`, `Running`, `Stopping` and
`Error`; `reset` is rejected unless the state is `Running`; and every
rejected call leaves the session state unchanged. -/
theorem C9_session_lifecycle_gating :
    (∀ (st : SunpciState) (m : Nat), st ≠ SunpciState.stopped →
      ioctl_start_session st m = (-EBUSY, st) ∨
      ioctl_start_session st m = (-EINVAL, st)) ∧
    (∀ st, st = SunpciState.stopped →
      ioctl_stop_session st = (-EINVAL, st)) ∧
    (∀ st, st ≠ SunpciState.stopped →
      ioctl_stop_session st = (0, SunpciState.stopped)) ∧
    (∀ st, st ≠ SunpciState.running →
      ioctl_reset_session st = (-EINVAL, st)) ∧
    (∀ (st : SunpciState) (m : Nat), (ioctl_start_session st m).1 ≠ 0 →
      (ioctl_start_session st m).2 = st) ∧
    (∀ st, (ioctl_stop_session st).1 ≠ 0 → (ioctl_stop_session st).2 = st) ∧
    (∀ st, (ioctl_reset_session st).1 ≠ 0 →
      (ioctl_reset_session st).2 = st) := by
  refine ⟨?_, ?_, ?_, ?_, ?_, ?_, ?_⟩
  · intro st m hst
    unfold ioctl_start_session
    by_cases hm : m < 1 ∨ m > 256
    · rw [if_pos hm]
      exact .inr rfl
    · rw [if_neg hm, if_pos hst]
      exact .inl rfl
  · intro st hst
    unfold ioctl_stop_session
    rw [if_pos hst]
  · intro st hst
    unfold ioctl_stop_session
    rw [if_neg hst]
  · intro st hst
    unfold ioctl_reset_session
    rw [if_pos hst]
  · intro st m h
    unfold ioctl_start_session at h ⊢
    by_cases hm : m < 1 ∨ m > 256
    · rw [if_pos hm]
    · rw [if_neg hm] at h ⊢
      by_cases hst : st ≠ SunpciState.stopped
      · rw [if_pos hst]
      · rw [if_neg hst] at h
        simp at h
  · intro st h
    unfold ioctl_stop_session at h ⊢
    by_cases hst : st = SunpciState.stopped
    · rw [if_pos hst]
    · rw [if_neg hst] at h
      simp at h
  · intro st h
    unfold ioctl_reset_session at h ⊢
    by_cases hst : st ≠ SunpciState.running
    · rw [if_pos hst]
    · rw [if_neg hst] at h
      simp at h

/-- Witness for C9: concrete rejected calls from each gated state. -/
theorem C9_witness :
    (ioctl_start_session SunpciState.running 64 = (-EBUSY, SunpciState.running) ∨
     ioctl_start_session SunpciState.running 64 = (-EINVAL, SunpciState.running)) ∧
    ioctl_stop_session SunpciState.stopped = (-EINVAL, SunpciState.stopped) ∧
    ioctl_reset_session SunpciState.stopping = (-EINVAL, SunpciState.stopping) ∧
    (ioctl_start_session SunpciState.stopped 0).2 = SunpciState.stopped := by
  refine ⟨?_, ?_, ?_, ?_⟩
  · exact C9_session_lifecycle_gating.1 SunpciState.running 64 (by decide)
  · exact C9_session_lifecycle_gating.2.1 SunpciState.stopped (by decide)
  · exact C9_session_lifecycle_gating.2.2.2.1 SunpciState.stopping (by decide)
  · exact C9_session_lifecycle_gating.2.2.2.2.1 SunpciState.stopped 0
      (by decide)

end SunPCI
